import Mathlib

/-!
# dcm4d reader: slice ordering, series ordering and the directory scan

A shallow embedding of `dcm4d/include/dcmtk/dcm4d/reader.h` and
`dcm4d/libsrc/reader.cc`.

Modelling conventions

* `double` is modelled by `Double`: NaN, the two infinities, and the finite values as
  rationals. Every sum, difference and product is rounded to the nearest binary64 value,
  ties to even, overflowing to an infinity (`Double.round`); each operation is rounded on
  its own (no fused multiply-add, no extended precision). A decimal literal of the source is
  the binary64 value nearest to it. The sign of a zero is not modelled: no operation of the
  reader tells `-0.0` from `0.0`.
* `long` is modelled by `Int`; the sentinel `std::numeric_limits<long>::max()` is `LONG_MAX`.
* `std::string` and the character data of `OFFilename` are lists of byte values, compared
  byte-wise lexicographically (as `std::string::compare` and `strcmp` do).
* `std::valarray<double>` is a list of `Double`; element-wise operators are `List.zipWith`
  (the source only combines arrays of equal size). `sum()` of an array expression adds the
  elements from the last to the first, as `_Expr::sum` of libstdc++ does.
* `std::set` with a comparator is the list of its elements in iteration order; lookup and
  insertion scan that list from the front, insertion with the hint `end()` first looks at
  the last element. This is what the balanced tree computes whenever the comparator is a
  strict weak order on the elements involved, and always when the set holds at most one
  element. The general statements about the scan only rely on sets of that kind or on
  properties that every insertion into the tree has (an element is stored unless a stored
  one is neither less nor greater; nothing stored is lost). Where a concrete example
  searches a larger set under an inconsistent order, its doc comment traces the tree of
  libstdc++ to the same result.
* The tag store (`DcmItem`) and the number parsers (`OFStandard::atof`, `std::stol`) belong
  to libraries outside the repository: the first is an interface of lookup functions, the
  second a parameter of the extraction functions.
* File names hold no NUL byte, so that `strcmp` compares all of their bytes.
-/

namespace Dcm4d

/-! ## Strings -/

/-- The bytes of a `std::string` (or of the C string held by an `OFFilename`). -/
abbrev Str := List Nat

/-- Byte-wise lexicographic "less than": `std::string::operator<` and `strcmp(a, b) < 0`. -/
def strLt : Str → Str → Bool
  | [], [] => false
  | [], _ :: _ => true
  | _ :: _, [] => false
  | x :: xs, y :: ys => if x < y then true else if y < x then false else strLt xs ys

/-! ## Doubles -/

/-- A value of type `double`: NaN, plus or minus infinity, or a finite number. The finite
numbers are held as rationals; the binary64 values are those that `Double.round` leaves
unchanged. Every sum, difference and product computed below is such a value, and the
concrete examples are built from such values only. -/
inductive Double where
  | nan
  | inf (negative : Bool)
  | fin (q : ℚ)
  deriving DecidableEq

namespace Double

instance (n : Nat) : OfNat Double n := ⟨Double.fin n⟩

/-- The number of halvings that bring `n` below 2, at most `fuel` of them. -/
def log2Aux : Nat → Nat → Nat
  | 0, _ => 0
  | fuel + 1, n => if n < 2 then 0 else log2Aux fuel (n / 2) + 1

/-- The integer part of the binary logarithm of `n ≥ 1`. -/
def ilog2 (n : Nat) : Nat := log2Aux n n

/-- The binary exponent used to round `q > 0`: the `e ≥ -1022` with `2^e ≤ q < 2^(e+1)`, or
`-1022` (the exponent of the subnormal numbers) when `q < 2^-1022`. The difference of the
logarithms of numerator and denominator is that exponent or exceeds it by one. -/
def exponent (q : ℚ) : Int :=
  if -1022 ≤ (ilog2 q.num.natAbs : Int) - (ilog2 q.den : Int)
      ∧ (2 : ℚ) ^ ((ilog2 q.num.natAbs : Int) - (ilog2 q.den : Int)) ≤ q then
    (ilog2 q.num.natAbs : Int) - (ilog2 q.den : Int)
  else if -1022 ≤ (ilog2 q.num.natAbs : Int) - (ilog2 q.den : Int) - 1
      ∧ (2 : ℚ) ^ ((ilog2 q.num.natAbs : Int) - (ilog2 q.den : Int) - 1) ≤ q then
    (ilog2 q.num.natAbs : Int) - (ilog2 q.den : Int) - 1
  else -1022

/-- The integer nearest to `n ≥ 0`, the even one of the two when `n` lies half way. -/
def nearestEven (n : ℚ) : Int :=
  if n - ⌊n⌋ < 1 / 2 then ⌊n⌋
  else if 1 / 2 < n - ⌊n⌋ then ⌊n⌋ + 1
  else if ⌊n⌋ % 2 = 0 then ⌊n⌋
  else ⌊n⌋ + 1

/-- Rounding of `q > 0` to binary64: the multiple of `2^(exponent - 52)` nearest to `q`, ties
to the even multiple; infinity from `2^1024` on. -/
def roundPos (q : ℚ) : Double :=
  if (2 : ℚ) ^ (1024 : Int) ≤ nearestEven (q / 2 ^ (exponent q - 52)) * 2 ^ (exponent q - 52) then
    inf false
  else fin (nearestEven (q / 2 ^ (exponent q - 52)) * 2 ^ (exponent q - 52))

/-- The unary minus. -/
def neg : Double → Double
  | nan => nan
  | inf s => inf (!s)
  | fin q => fin (-q)

/-- Rounding of a rational number to binary64 (round to nearest, ties to even). -/
def round (q : ℚ) : Double :=
  if q = 0 then fin 0 else if 0 < q then roundPos q else neg (roundPos (-q))

/-- The sum `x + y`. -/
def add : Double → Double → Double
  | fin x, fin y => round (x + y)
  | fin _, inf s => inf s
  | inf s, fin _ => inf s
  | inf s, inf t => if s = t then inf s else nan
  | nan, _ => nan
  | _, nan => nan

/-- The difference `x - y`. -/
def sub (x y : Double) : Double := add x (neg y)

/-- The product `x * y`. -/
def mul : Double → Double → Double
  | fin x, fin y => round (x * y)
  | fin x, inf s => if x = 0 then nan else inf (s != decide (x < 0))
  | inf s, fin y => if y = 0 then nan else inf (s != decide (y < 0))
  | inf s, inf t => inf (s != t)
  | nan, _ => nan
  | _, nan => nan

/-- The function `fabs`. -/
def abs : Double → Double
  | nan => nan
  | inf _ => inf false
  | fin q => fin |q|

/-- The comparison `x < y` (false when an operand is NaN). -/
def lt : Double → Double → Bool
  | fin x, fin y => decide (x < y)
  | fin _, inf s => !s
  | inf s, fin _ => s
  | inf s, inf t => s && !t
  | nan, _ => false
  | _, nan => false

/-- The comparison `x <= y` (false when an operand is NaN). -/
def le : Double → Double → Bool
  | fin x, fin y => decide (x ≤ y)
  | fin _, inf s => !s
  | inf s, fin _ => s
  | inf s, inf t => s || !t
  | nan, _ => false
  | _, nan => false

/-- Neither NaN nor an infinity (`std::isfinite`). -/
def isFinite : Double → Bool
  | fin _ => true
  | _ => false

/-- Zero or NaN: what `x - x` can be. -/
def isZeroOrNaN : Double → Bool
  | nan => true
  | inf _ => false
  | fin q => decide (q = 0)

/-- Plus infinity or a finite number that is not negative. -/
def isNonneg : Double → Bool
  | nan => false
  | inf s => !s
  | fin q => decide (0 ≤ q)

end Double

/-- The literal `0.0001` of reader.cc 159 and 165. -/
def lit0001 : Double := Double.round (1 / 10000)

/-- The literal `0.1` of reader.cc 147. -/
def lit01 : Double := Double.round (1 / 10)

/-- The literal `0.00000001` of reader.cc 148 and 149. -/
def lit00000001 : Double := Double.round (1 / 100000000)

/-! ## Vector algebra (reader.h 24-42) -/

/-- A `std::valarray<double>`. -/
abbrev Valarray := List Double

/-- A `Vector3D` is a `std::valarray<double>`; its default constructor makes three zeros. -/
abbrev Vector3D := Valarray

/-- The default constructed `Vector3D()`: `valarray(3)`. -/
def Vector3D.zero : Vector3D := [0, 0, 0]

/-- Circular left shift `v.cshift(n)`: element `i` of the result is `v[(i + n) mod size]`. -/
def cshift (v : Valarray) (n : Nat) : Valarray :=
  v.drop (n % v.length) ++ v.take (n % v.length)

/-- Element-wise product `a * b`. -/
def vmul (a b : Valarray) : Valarray := List.zipWith Double.mul a b

/-- Element-wise difference `a - b`. -/
def vsub (a b : Valarray) : Valarray := List.zipWith Double.sub a b

/-- Element-wise sum `a + b`. -/
def vadd (a b : Valarray) : Valarray := List.zipWith Double.add a b

/-- The member `sum()` of an array expression: zero for no element, else the last element
to which the others are added from back to front. -/
def vsum (a : Valarray) : Double :=
  match a.reverse with
  | [] => 0
  | x :: xs => xs.foldl Double.add x

/-- `cross(a, b) = a.cshift(1)*b.cshift(2) - a.cshift(2)*b.cshift(1)`. -/
def cross (a b : Vector3D) : Vector3D :=
  vsub (vmul (cshift a 1) (cshift b 2)) (vmul (cshift a 2) (cshift b 1))

/-- `sqr(v) = (v*v).sum()`. -/
def sqr (v : Valarray) : Double := vsum (vmul v v)

/-! ## Slice descriptor (reader.h 53-85) -/

/-- `std::numeric_limits<long>::max()` for a 64 bit `long`. -/
def LONG_MAX : Int := 9223372036854775807

/-- `std::numeric_limits<double>::max()`. -/
def DBL_MAX : Double := Double.fin ((2 ^ 53 - 1) * 2 ^ 971)

/-- The anonymous enum of `SliceInfo::SpacingType`. -/
inductive SpacingKind where
  | SpacingInPatient
  | SpacingAtDetector
  | SpacingUnknown
  deriving DecidableEq, Repr

/-- One slice (one file) info. `Orientation0`, `Orientation1`, `Orientation2` are the three
elements of the array `Vector3D Orientation[3]`. -/
structure SliceInfo where
  AcquisitionNumber : Int := LONG_MAX
  TemporalPosition : Int := LONG_MAX
  InstanceNumber : Int := LONG_MAX
  FileSize : Nat := 0
  Laterality : Str := []
  ViewPosition : Str := []
  SOPInstanceUID : Str := []
  FileName : Str := []
  ImagePositionPatient : Vector3D := Vector3D.zero
  Orientation0 : Vector3D := Vector3D.zero
  Orientation1 : Vector3D := Vector3D.zero
  Orientation2 : Vector3D := Vector3D.zero
  GantryTilt : Double := 0
  SliceLocation : Double := DBL_MAX
  PixelSpacing : Valarray := [1, 1]
  SpacingType : SpacingKind := SpacingKind.SpacingUnknown
  Rows : Int := 0
  Columns : Int := 0
  NumberOfFrames : Int := 1
  HasImagePositionPatient : Bool := false
  HasOrientation : Bool := false
  deriving DecidableEq

namespace SliceInfo

/-- The assignment `sl.FileName = fn` (reader.cc 235). -/
def withFileName (a : SliceInfo) (fn : Str) : SliceInfo := { a with FileName := fn }

/-- The value `HasImagePositionPatient && HasOrientation` (reader.cc 143-145). -/
def hasGeometry (a : SliceInfo) : Bool := a.HasImagePositionPatient && a.HasOrientation

/-- Lines 165-183 of reader.cc: slice location, acquisition number, temporal position,
instance number, SOP instance UID, file name (the build without wide character file names). -/
def ltScalar (a b : SliceInfo) : Bool :=
  if Double.lt lit0001 (Double.abs (Double.sub a.SliceLocation b.SliceLocation)) = true then
    Double.lt a.SliceLocation b.SliceLocation
  else if a.AcquisitionNumber ≠ b.AcquisitionNumber then
    decide (a.AcquisitionNumber < b.AcquisitionNumber)
  else if a.TemporalPosition ≠ b.TemporalPosition then
    decide (a.TemporalPosition < b.TemporalPosition)
  else if a.InstanceNumber ≠ b.InstanceNumber then decide (a.InstanceNumber < b.InstanceNumber)
  else if a.SOPInstanceUID ≠ b.SOPInstanceUID then strLt a.SOPInstanceUID b.SOPInstanceUID
  else strLt a.FileName b.FileName

/-- Lines 161-164 of reader.cc (paired body parts), falling through to `ltScalar`. -/
def ltPaired (a b : SliceInfo) : Bool :=
  if (!a.HasImagePositionPatient && !b.HasImagePositionPatient
      && !a.Laterality.isEmpty && !b.Laterality.isEmpty) = true then
    if a.ViewPosition ≠ b.ViewPosition then strLt a.ViewPosition b.ViewPosition
    else if a.Laterality ≠ b.Laterality then strLt b.Laterality a.Laterality
    else ltScalar a b
  else ltScalar a b

/-- The condition of the `if` at lines 145-149 of reader.cc. -/
def geomCond (a b : SliceInfo) : Bool :=
  a.HasImagePositionPatient && a.HasOrientation
  && Double.le (Double.abs (Double.sub a.GantryTilt b.GantryTilt)) 10
  && decide (a.SpacingType = b.SpacingType)
  && Double.le (sqr (vsub a.PixelSpacing b.PixelSpacing)) (Double.mul lit01 (sqr a.PixelSpacing))
  && Double.le (sqr (vsub a.Orientation0 b.Orientation0)) lit00000001
  && Double.le (sqr (vsub a.Orientation1 b.Orientation1)) lit00000001

/-- The value `dist` of lines 152-156 of reader.cc. -/
def dist (a b : SliceInfo) : Double :=
  vsum (vmul (vadd a.Orientation2 b.Orientation2)
    (vsub b.ImagePositionPatient a.ImagePositionPatient))

/-- `SliceInfo::operator<` (reader.cc 124-184): `lt a b` is `a < b`. -/
def lt (a b : SliceInfo) : Bool :=
  if a.hasGeometry ≠ b.hasGeometry then decide (a.hasGeometry < b.hasGeometry)
  else if a.geomCond b = true then
    if Double.lt lit0001 (Double.abs (a.dist b)) = true then Double.lt 0 (a.dist b)
    else a.ltPaired b
  else a.ltPaired b

end SliceInfo

/-! ## Series descriptor (reader.h 96-117) -/

/-- A logical group of files; `slices` is the `std::set<SliceInfo>` in iteration order. -/
structure SeriesInfo where
  PatientID : Str := []
  IssuerOfPatientID : Str := []
  PatientName : Str := []
  PatientBirthDate : Str := []
  StudyDate : Str := []
  StudyID : Str := []
  StudyInstanceUID : Str := []
  SeriesNumber : Int := LONG_MAX
  SeriesTime : Str := []
  SeriesInstanceUID : Str := []
  Modality : Str := []
  SOPClassUID : Str := []
  slices : List SliceInfo := []
  deriving DecidableEq

namespace SeriesInfo

/-- The series `s` with its slice set replaced by `l` (the effect of `slices.emplace`). -/
def withSlices (s : SeriesInfo) (l : List SliceInfo) : SeriesInfo := { s with slices := l }

/-- Lines 207-211 of reader.cc: series number, series time, modality, SOP class, series UID. -/
def ltSeriesKeys (a b : SeriesInfo) : Bool :=
  if a.SeriesNumber ≠ b.SeriesNumber then decide (a.SeriesNumber < b.SeriesNumber)
  else if a.SeriesTime ≠ b.SeriesTime then strLt a.SeriesTime b.SeriesTime
  else if a.Modality ≠ b.Modality then strLt a.Modality b.Modality
  else if a.SOPClassUID ≠ b.SOPClassUID then strLt a.SOPClassUID b.SOPClassUID
  else strLt a.SeriesInstanceUID b.SeriesInstanceUID

/-- Lines 199-212 of reader.cc: the block entered when the series instance UIDs differ.
`x` and `y` are `*slices.begin()` and `*b.slices.begin()`. -/
def ltSeries (a b : SeriesInfo) : Bool :=
  match a.slices, b.slices with
  | [x], [y] =>
    if ((!x.HasImagePositionPatient && !x.Laterality.isEmpty)
        || (!y.HasImagePositionPatient && !y.Laterality.isEmpty)) = true then
      if x.ViewPosition ≠ y.ViewPosition then strLt x.ViewPosition y.ViewPosition
      else if x.Laterality ≠ y.Laterality then strLt y.Laterality x.Laterality
      else ltSeriesKeys a b
    else ltSeriesKeys a b
  | _, _ => ltSeriesKeys a b

/-- `SeriesInfo::operator<` (reader.cc 186-217): `lt a b` is `a < b`. The block at lines
213-215 only binds two unused references and is omitted. -/
def lt (a b : SeriesInfo) : Bool :=
  if a.PatientID ≠ b.PatientID ∧ a.IssuerOfPatientID ≠ b.IssuerOfPatientID then
    if a.PatientName ≠ b.PatientName then strLt a.PatientName b.PatientName
    else if a.PatientBirthDate ≠ b.PatientBirthDate then
      strLt a.PatientBirthDate b.PatientBirthDate
    else if a.IssuerOfPatientID ≠ b.IssuerOfPatientID then
      strLt a.IssuerOfPatientID b.IssuerOfPatientID
    else strLt a.PatientID b.PatientID
  else if a.StudyInstanceUID ≠ b.StudyInstanceUID then
    if a.StudyDate ≠ b.StudyDate then strLt a.StudyDate b.StudyDate
    else if a.StudyID ≠ b.StudyID then strLt a.StudyID b.StudyID
    else strLt a.StudyInstanceUID b.StudyInstanceUID
  else if a.SeriesInstanceUID ≠ b.SeriesInstanceUID then ltSeries a b
  else false

end SeriesInfo

/-! ## The tag store (DCMTK, outside the repository) -/

/-- The tag keys read by the two `fill` functions. -/
inductive DcmTagKey where
  | DCM_SOPInstanceUID
  | DCM_ReferencedSOPInstanceUIDInFile
  | DCM_MediaStorageSOPInstanceUID
  | DCM_ImageLaterality
  | DCM_Laterality
  | DCM_ViewPosition
  | DCM_ViewCodeSequence
  | DCM_CodeValue
  | DCM_InstanceNumber
  | DCM_AcquisitionNumber
  | DCM_TemporalPositionIndex
  | DCM_ImagePositionPatient
  | DCM_ImageOrientationPatient
  | DCM_GantryDetectorTilt
  | DCM_SliceLocation
  | DCM_Rows
  | DCM_Columns
  | DCM_NumberOfFrames
  | DCM_PixelSpacing
  | DCM_ImagerPixelSpacing
  | DCM_SeriesInstanceUID
  | DCM_StudyInstanceUID
  | DCM_SeriesNumber
  | DCM_PatientID
  | DCM_IssuerOfPatientID
  | DCM_PatientName
  | DCM_PatientBirthDate
  | DCM_StudyDate
  | DCM_StudyID
  | DCM_SeriesTime
  | DCM_Modality
  | DCM_SOPClassUID
  deriving DecidableEq, Repr

/-- The read interface of a `DcmItem` as the reader uses it.
`findAndGetOFStringArray tag subSearch` is the string left in the output argument (empty when
the tag is not found); `findAndGetSequenceItem tag` is the string lookup of the first item of
the sequence `tag` when the call is `good()`. -/
structure DcmItem where
  findAndGetOFStringArray : DcmTagKey → Bool → Str
  findAndGetSequenceItem : DcmTagKey → Option (DcmTagKey → Bool → Str) := fun _ => none

/-- The two number parsers of the libraries the reader calls.
`atof s` is the value returned by `OFStandard::atof(s, &success)` together with `success`;
`stol s` is the value of `std::stol(s)`, or `none` when it throws. -/
structure Parsers where
  atof : Str → Double × Bool
  stol : Str → Option Int

/-! ## Tag extraction (reader.cc 56-104) -/

/-- `SliceInfo::stringTag` (reader.cc 56-62); `d2 = none` is the null pointer. -/
def stringTag (tag : DcmTagKey) (d1 : DcmItem) (d2 : Option DcmItem) (subSearch : Bool) : Str :=
  let r := d1.findAndGetOFStringArray tag subSearch
  match d2 with
  | some d => if r.isEmpty then d.findAndGetOFStringArray tag subSearch else r
  | none => r

/-- `SliceInfo::getTag(double&, ...)` (reader.cc 63-69): the success flag and the new value
of the output argument `r`. -/
def getTagDouble (p : Parsers) (r : Double) (tag : DcmTagKey) (d1 : DcmItem)
    (d2 : Option DcmItem) : Bool × Double :=
  let v := p.atof (stringTag tag d1 d2 true)
  if v.2 then (true, v.1) else (false, r)

/-- `SliceInfo::getTag(long&, ...)` (reader.cc 70-78). -/
def getTagLong (p : Parsers) (r : Int) (tag : DcmTagKey) (d1 : DcmItem) (d2 : Option DcmItem)
    (subSearch : Bool) : Bool × Int :=
  match p.stol (stringTag tag d1 d2 subSearch) with
  | some v => (true, v)
  | none => (false, r)

/-- `std::getline(istr, coordinate, '\\')` on a stream whose unread characters are `s`:
`none` when nothing can be extracted, else the extracted field and the unread rest. -/
def getline (s : Str) : Option (Str × Str) :=
  match s with
  | [] => none
  | _ :: _ => some (s.takeWhile (fun c => c != 92), (s.dropWhile (fun c => c != 92)).drop 1)

/-- `SliceInfo::getTag(std::valarray<double>&, OFIStringStream&)` (reader.cc 80-90): the
success flag, the new contents of `r` and the unread rest of the stream. -/
def getTagStream (p : Parsers) : Valarray → Str → Bool × Valarray × Str
  | [], s => (true, [], s)
  | x :: xs, s =>
    match getline s with
    | none => (false, x :: xs, s)
    | some (coordinate, rest) =>
      let v := p.atof coordinate
      if v.2 then
        let t := getTagStream p xs rest
        (t.1, v.1 :: t.2.1, t.2.2)
      else (false, v.1 :: xs, rest)

/-- `SliceInfo::getTag(std::valarray<double>&, DcmTagKey, ...)` (reader.cc 91-96). -/
def getTagArray (p : Parsers) (r : Valarray) (tag : DcmTagKey) (d1 : DcmItem)
    (d2 : Option DcmItem) : Bool × Valarray :=
  let t := getTagStream p r (stringTag tag d1 d2 true)
  (t.1, t.2.1)

/-- `SliceInfo::getTag(Vector3D (&)[3], DcmTagKey, ...)` (reader.cc 97-104): the success flag
and the new `r[0]`, `r[1]`, `r[2]`. -/
def getTagOrientation (p : Parsers) (r0 r1 r2 : Vector3D) (tag : DcmTagKey) (d1 : DcmItem)
    (d2 : Option DcmItem) : Bool × Vector3D × Vector3D × Vector3D :=
  let t0 := getTagStream p r0 (stringTag tag d1 d2 true)
  if t0.1 then
    let t1 := getTagStream p r1 t0.2.2
    if t1.1 then (true, t0.2.1, t1.2.1, cross t0.2.1 t1.2.1)
    else (false, t0.2.1, t1.2.1, r2)
  else (false, t0.2.1, r1, r2)

/-! ## Filling the descriptors (reader.cc 23-54, 106-122) -/

open DcmTagKey

/-- The literal "R-10242". -/
def codeCC : Str := [82, 45, 49, 48, 50, 52, 50]
/-- The literal "R-10224". -/
def codeML : Str := [82, 45, 49, 48, 50, 50, 52]
/-- The literal "R-10226". -/
def codeMLO : Str := [82, 45, 49, 48, 50, 50, 54]
/-- The literal "CC". -/
def strCC : Str := [67, 67]
/-- The literal "ML". -/
def strML : Str := [77, 76]
/-- The literal "MLO". -/
def strMLO : Str := [77, 76, 79]

/-- Lines 25-27 of reader.cc: the identifier kept in `SOPInstanceUID`. -/
def resolveSOPInstanceUID (d1 : DcmItem) (d2 : Option DcmItem) : Str :=
  let u1 := stringTag DCM_SOPInstanceUID d1 d2 false
  let u2 := if u1.isEmpty then stringTag DCM_ReferencedSOPInstanceUIDInFile d1 d2 false else u1
  if u2.isEmpty then stringTag DCM_MediaStorageSOPInstanceUID d1 d2 false else u2

/-- Lines 31-40 of reader.cc: the view position, read from `ViewCodeSequence` when the
`ViewPosition` tag is empty. -/
def resolveViewPosition (d1 : DcmItem) (d2 : Option DcmItem) : Str :=
  let v := stringTag DCM_ViewPosition d1 d2 false
  if v.isEmpty then
    match d1.findAndGetSequenceItem DCM_ViewCodeSequence with
    | some seq =>
      let code := stringTag DCM_CodeValue { findAndGetOFStringArray := seq } none true
      if code = codeCC then strCC
      else if code = codeML then strML
      else if code = codeMLO then strMLO
      else v
    | none => v
  else v

/-- `SliceInfo::fill` (reader.cc 23-54) run on the object `this`: the returned flag and the
object afterwards. -/
def SliceInfo.fill (p : Parsers) (this : SliceInfo) (d1 : DcmItem) (d2 : Option DcmItem) :
    Bool × SliceInfo :=
  let uid := resolveSOPInstanceUID d1 d2
  if uid.isEmpty then (false, { this with SOPInstanceUID := uid })
  else
    let lat := stringTag DCM_ImageLaterality d1 d2 false
    let lat := if lat.isEmpty then stringTag DCM_Laterality d1 d2 false else lat
    let ipp := getTagArray p this.ImagePositionPatient DCM_ImagePositionPatient d1 d2
    let ori := getTagOrientation p this.Orientation0 this.Orientation1 this.Orientation2
      DCM_ImageOrientationPatient d1 d2
    let ps1 := getTagArray p this.PixelSpacing DCM_PixelSpacing d1 d2
    let ps2 := getTagArray p ps1.2 DCM_ImagerPixelSpacing d1 d2
    (true,
      { this with
        SOPInstanceUID := uid
        Laterality := lat
        ViewPosition := resolveViewPosition d1 d2
        InstanceNumber := (getTagLong p this.InstanceNumber DCM_InstanceNumber d1 d2 true).2
        AcquisitionNumber :=
          (getTagLong p this.AcquisitionNumber DCM_AcquisitionNumber d1 d2 true).2
        TemporalPosition :=
          (getTagLong p this.TemporalPosition DCM_TemporalPositionIndex d1 d2 true).2
        HasImagePositionPatient := ipp.1
        ImagePositionPatient := ipp.2
        HasOrientation := ori.1
        Orientation0 := ori.2.1
        Orientation1 := ori.2.2.1
        Orientation2 := ori.2.2.2
        GantryTilt := (getTagDouble p this.GantryTilt DCM_GantryDetectorTilt d1 d2).2
        SliceLocation := (getTagDouble p this.SliceLocation DCM_SliceLocation d1 d2).2
        Rows := (getTagLong p this.Rows DCM_Rows d1 d2 true).2
        Columns := (getTagLong p this.Columns DCM_Columns d1 d2 true).2
        NumberOfFrames := (getTagLong p this.NumberOfFrames DCM_NumberOfFrames d1 d2 true).2
        PixelSpacing := if ps1.1 then ps1.2 else ps2.2
        SpacingType :=
          if ps1.1 then SpacingKind.SpacingInPatient
          else if ps2.1 then SpacingKind.SpacingAtDetector
          else this.SpacingType })

/-- `SeriesInfo::fill` (reader.cc 106-122) run on the object `this` with two non-null items
(lines 112-113 dereference `d2`). -/
def SeriesInfo.fill (p : Parsers) (this : SeriesInfo) (d1 d2 : DcmItem) : Bool × SeriesInfo :=
  let s1 : SeriesInfo :=
    { this with
      SeriesInstanceUID := stringTag DCM_SeriesInstanceUID d1 (some d2) false
      StudyInstanceUID := stringTag DCM_StudyInstanceUID d1 (some d2) false
      SeriesNumber := (getTagLong p this.SeriesNumber DCM_SeriesNumber d1 (some d2) false).2 }
  if (s1.SeriesInstanceUID.isEmpty && s1.StudyInstanceUID.isEmpty) = true then (false, s1)
  else
    (true,
      { s1 with
        PatientID := stringTag DCM_PatientID d2 (some d1) false
        IssuerOfPatientID := stringTag DCM_IssuerOfPatientID d2 (some d1) false
        PatientName := stringTag DCM_PatientName d1 (some d2) false
        PatientBirthDate := stringTag DCM_PatientBirthDate d1 (some d2) false
        StudyDate := stringTag DCM_StudyDate d1 (some d2) false
        StudyID := stringTag DCM_StudyID d1 (some d2) false
        SeriesTime := stringTag DCM_SeriesTime d1 (some d2) false
        Modality := stringTag DCM_Modality d1 (some d2) false
        SOPClassUID := stringTag DCM_SOPClassUID d1 (some d2) false })

/-! ## `std::set` with a comparator, as the list of its elements in iteration order -/

/-- `std::set::find(k)`: the position of the first element that is not less than `k`
(`lower_bound`), provided `k` is not less than it; `none` is `end()`. -/
def setFind {α : Type} (less : α → α → Bool) : List α → α → Option Nat
  | [], _ => none
  | y :: ys, k =>
    if less y k then (setFind less ys k).map (fun i => i + 1)
    else if less k y then none
    else some 0

/-- `std::set::emplace(k)`: `k` is put before the first element it
is less than, unless an element that is neither less nor greater is met first. -/
def setEmplace {α : Type} (less : α → α → Bool) : List α → α → List α
  | [], k => [k]
  | y :: ys, k =>
    if less k y then k :: y :: ys
    else if less y k then y :: setEmplace less ys k
    else y :: ys

/-- `std::set::emplace_hint(end(), k)`: `k` is appended when the last element is less than
it; otherwise it is inserted as by `emplace`. -/
def setEmplaceHint {α : Type} (less : α → α → Bool) (l : List α) (k : α) : List α :=
  match l.getLast? with
  | some y => if less y k then l ++ [k] else setEmplace less l k
  | none => setEmplace less l k

/-- The update `f(*it)` of the element at position `i`. -/
def modifyAt {α : Type} (f : α → α) : List α → Nat → List α
  | [], _ => []
  | y :: ys, 0 => f y :: ys
  | y :: ys, i + 1 => y :: modifyAt f ys i

/-! ## The scan (reader.cc 219-246) -/

/-- One enumerated file: its name `fn` and the two items of the loaded `DcmFileFormat`. -/
structure DcmFile where
  fn : Str
  dataset : DcmItem
  metaInfo : DcmItem

/-- A `SeriesSet`: the series in iteration order. -/
abbrev SeriesSet := List SeriesInfo

/-- Lines 238-244 of reader.cc: the slice `sl` and the freshly filled series `sr` enter
the set. -/
def SeriesSet.add (set : SeriesSet) (sl : SliceInfo) (sr : SeriesInfo) : SeriesSet :=
  let sr1 : SeriesInfo := sr.withSlices (setEmplace SliceInfo.lt sr.slices sl)
  match setFind SeriesInfo.lt set sr1 with
  | none => setEmplaceHint SeriesInfo.lt set sr1
  | some i =>
    modifyAt (fun s : SeriesInfo => s.withSlices (setEmplace SliceInfo.lt s.slices sl)) set i

/-- The body of the loop of `SeriesSet::scanDirectory` (reader.cc 226-245) for one file. -/
def SeriesSet.step (p : Parsers) (set : SeriesSet) (f : DcmFile) : SeriesSet :=
  let sl := SliceInfo.fill p {} f.dataset (some f.metaInfo)
  if sl.1 then
    let sr := SeriesInfo.fill p {} f.dataset f.metaInfo
    if sr.1 then SeriesSet.add set (sl.2.withFileName f.fn) sr.2
    else set
  else set

/-- `SeriesSet::scanDirectory` on the set `set`, given the files that
`OFStandard::searchDirectoryRecursively` lists, each with its loaded contents. -/
def SeriesSet.scanDirectory (p : Parsers) (set : SeriesSet) (files : List DcmFile) : SeriesSet :=
  files.foldl (SeriesSet.step p) set

/-- The slice `sl` of the loop body after line 235 of reader.cc: filled from the file, with
`FileName` set. -/
def DcmFile.slice (p : Parsers) (f : DcmFile) : SliceInfo :=
  (SliceInfo.fill p {} f.dataset (some f.metaInfo)).2.withFileName f.fn

/-- The series `*sr` of the loop body after line 237 of reader.cc. -/
def DcmFile.series (p : Parsers) (f : DcmFile) : SeriesInfo :=
  (SeriesInfo.fill p {} f.dataset f.metaInfo).2

/-- Both `fill` calls of the loop body return true: the file is not skipped. -/
def DcmFile.usable (p : Parsers) (f : DcmFile) : Bool :=
  (SliceInfo.fill p {} f.dataset (some f.metaInfo)).1
    && (SeriesInfo.fill p {} f.dataset f.metaInfo).1

/-- What the listing tools of `dcm4d/apps` print: for each series of the set, in iteration
order, the file names of its slices in iteration order. -/
def SeriesSet.fileNames (set : SeriesSet) : List (List Str) :=
  set.map (fun s => s.slices.map (fun sl => sl.FileName))

/-! ## The identifier rule in the words of the specification -/

/-- The value of `tag` for a pair of metadata regions as the specification words it: the
dataset value when that is non-empty, the file-meta value otherwise. -/
def specTagValue (tag : DcmTagKey) (dataset fileMeta : DcmItem) : Str :=
  if dataset.findAndGetOFStringArray tag false ≠ [] then
    dataset.findAndGetOFStringArray tag false
  else fileMeta.findAndGetOFStringArray tag false

/-- The identifier as the specification words it: the value of the first of SOPInstanceUID,
ReferencedSOPInstanceUIDInFile, MediaStorageSOPInstanceUID, in that order, that is non-empty
(empty when none is). -/
def specIdentifier (dataset fileMeta : DcmItem) : Str :=
  if specTagValue DCM_SOPInstanceUID dataset fileMeta ≠ [] then
    specTagValue DCM_SOPInstanceUID dataset fileMeta
  else if specTagValue DCM_ReferencedSOPInstanceUIDInFile dataset fileMeta ≠ [] then
    specTagValue DCM_ReferencedSOPInstanceUIDInFile dataset fileMeta
  else specTagValue DCM_MediaStorageSOPInstanceUID dataset fileMeta

/-! ## The numeric rules in the words of the specification (exact arithmetic) -/

/-- The rational value of a finite double (0 for NaN and the infinities). -/
def Double.toRat : Double → ℚ
  | Double.fin q => q
  | _ => 0

/-- The projection `p` as the specification words it, in exact arithmetic: the dot product
of the sum of the two normals with the displacement from `a` to `b`. -/
def exactDist (a b : SliceInfo) : ℚ :=
  (List.zipWith (fun n d => n * d)
    (List.zipWith (fun x y => x.toRat + y.toRat) a.Orientation2 b.Orientation2)
    (List.zipWith (fun x y => x.toRat - y.toRat) b.ImagePositionPatient
      a.ImagePositionPatient)).sum

/-! ## Concrete inputs used by the examples -/

/-- Slice A of the geometric scenario: position (0,0,0), axes (1,0,0) and (0,1,0). -/
def geomA : SliceInfo :=
  { SOPInstanceUID := [49], FileName := [97],
    HasImagePositionPatient := true, HasOrientation := true,
    ImagePositionPatient := [0, 0, 0],
    Orientation0 := [1, 0, 0], Orientation1 := [0, 1, 0], Orientation2 := [0, 0, 1] }

/-- Slice B of the geometric scenario: as `geomA`, at position (0,0,5). -/
def geomB : SliceInfo :=
  { geomA with SOPInstanceUID := [50], FileName := [98], ImagePositionPatient := [0, 0, 5] }

/-- Three slices without position whose slice locations are 2^-13, 2^-14 and 0 and whose
acquisition numbers are 1, 2 and 3. -/
def chainA : SliceInfo :=
  { SOPInstanceUID := [49], FileName := [97], SliceLocation := Double.fin (1 / 8192),
    AcquisitionNumber := 1 }

/-- See `chainA`. -/
def chainB : SliceInfo :=
  { SOPInstanceUID := [50], FileName := [98], SliceLocation := Double.fin (1 / 16384),
    AcquisitionNumber := 2 }

/-- See `chainA`. -/
def chainC : SliceInfo :=
  { SOPInstanceUID := [51], FileName := [99], SliceLocation := 0, AcquisitionNumber := 3 }

/-- A slice at position (0,0,0) with pixel spacing 4\4 and slice location 1. -/
def wideA : SliceInfo :=
  { geomA with
    PixelSpacing := [4, 4], SpacingType := SpacingKind.SpacingInPatient, SliceLocation := 1 }

/-- A slice at position (0,0,1) with pixel spacing 3\3 and slice location 0. -/
def wideB : SliceInfo :=
  { geomB with
    ImagePositionPatient := [0, 0, 1],
    PixelSpacing := [3, 3], SpacingType := SpacingKind.SpacingInPatient, SliceLocation := 0 }

/-- Reads a non-empty string of ASCII digits as a natural number. -/
def readDigits : Str → Option Nat
  | [] => none
  | c :: cs =>
    (c :: cs).foldl
      (fun acc d =>
        match acc with
        | some n => if 48 ≤ d ∧ d ≤ 57 then some (10 * n + (d - 48)) else none
        | none => none)
      (some 0)

/-- Number parsers for the concrete examples. On a non-empty string of ASCII digits `stol`
returns that number, or fails when it exceeds `LONG_MAX`, as `std::stol` does; on such a
string of at most 15 digits `atof` returns that number, which is a double, with success, as
`OFStandard::atof` does. On the empty string both fail, as the library functions do. The
examples hold no other strings (no sign, blank, decimal point, exponent or trailing text);
this instance reports them as failures. -/
def digitParsers : Parsers :=
  { atof := fun s =>
      match readDigits s with
      | some n => (Double.round n, true)
      | none => (0, false)
    stol := fun s =>
      match readDigits s with
      | some n => if (n : Int) ≤ LONG_MAX then some (n : Int) else none
      | none => none }

/-- A flat item holding exactly the listed elements (no sequences). -/
def itemOf (tags : List (DcmTagKey × Str)) : DcmItem :=
  { findAndGetOFStringArray := fun tag _ => (tags.lookup tag).getD [] }

/-- File "a": SOPInstanceUID "1", SeriesInstanceUID "7", StudyInstanceUID "1". -/
def studyFile1 : DcmFile :=
  { fn := [97]
    dataset := itemOf [(DCM_SOPInstanceUID, [49]), (DCM_SeriesInstanceUID, [55]),
      (DCM_StudyInstanceUID, [49])]
    metaInfo := itemOf [] }

/-- File "b": SOPInstanceUID "2", SeriesInstanceUID "7", StudyInstanceUID "2". -/
def studyFile2 : DcmFile :=
  { fn := [98]
    dataset := itemOf [(DCM_SOPInstanceUID, [50]), (DCM_SeriesInstanceUID, [55]),
      (DCM_StudyInstanceUID, [50])]
    metaInfo := itemOf [] }

/-- File "b": SOPInstanceUID "2", SeriesInstanceUID "7", StudyInstanceUID "1". -/
def studyFile3 : DcmFile :=
  { fn := [98]
    dataset := itemOf [(DCM_SOPInstanceUID, [50]), (DCM_SeriesInstanceUID, [55]),
      (DCM_StudyInstanceUID, [49])]
    metaInfo := itemOf [] }

/-- File "a": SOPInstanceUID "1", no SeriesInstanceUID, StudyInstanceUID "1.2.3",
PatientID "1", IssuerOfPatientID "1", PatientName "A". -/
def patientFile1 : DcmFile :=
  { fn := [97]
    dataset := itemOf [(DCM_SOPInstanceUID, [49]), (DCM_StudyInstanceUID, [49, 46, 50, 46, 51]),
      (DCM_PatientID, [49]), (DCM_IssuerOfPatientID, [49]), (DCM_PatientName, [65])]
    metaInfo := itemOf [] }

/-- File "b": SOPInstanceUID "2", no SeriesInstanceUID, StudyInstanceUID "1.2.3",
PatientID "2", IssuerOfPatientID "2", PatientName "B". -/
def patientFile2 : DcmFile :=
  { fn := [98]
    dataset := itemOf [(DCM_SOPInstanceUID, [50]), (DCM_StudyInstanceUID, [49, 46, 50, 46, 51]),
      (DCM_PatientID, [50]), (DCM_IssuerOfPatientID, [50]), (DCM_PatientName, [66])]
    metaInfo := itemOf [] }

/-- File "a" of series "7" of study "1": ImagePositionPatient "0\0\0",
ImageOrientationPatient "1\0\0\0\1\0", PixelSpacing "4\4", SliceLocation "1". -/
def wideFile1 : DcmFile :=
  { fn := [97]
    dataset := itemOf [(DCM_SOPInstanceUID, [49]), (DCM_SeriesInstanceUID, [55]),
      (DCM_StudyInstanceUID, [49]),
      (DCM_ImagePositionPatient, [48, 92, 48, 92, 48]),
      (DCM_ImageOrientationPatient, [49, 92, 48, 92, 48, 92, 48, 92, 49, 92, 48]),
      (DCM_PixelSpacing, [52, 92, 52]), (DCM_SliceLocation, [49])]
    metaInfo := itemOf [] }

/-- File "b" of series "7" of study "1": ImagePositionPatient "0\0\1",
ImageOrientationPatient "1\0\0\0\1\0", PixelSpacing "3\3", SliceLocation "0". -/
def wideFile2 : DcmFile :=
  { fn := [98]
    dataset := itemOf [(DCM_SOPInstanceUID, [50]), (DCM_SeriesInstanceUID, [55]),
      (DCM_StudyInstanceUID, [49]),
      (DCM_ImagePositionPatient, [48, 92, 48, 92, 49]),
      (DCM_ImageOrientationPatient, [49, 92, 48, 92, 48, 92, 48, 92, 49, 92, 48]),
      (DCM_PixelSpacing, [51, 92, 51]), (DCM_SliceLocation, [48])]
    metaInfo := itemOf [] }

/-- A file in which no tag is found (for instance one that failed to load). -/
def emptyFile : DcmFile := { fn := [97], dataset := itemOf [], metaInfo := itemOf [] }

/-- File "b" with a SOPInstanceUID "2" and neither series nor study instance UID. -/
def orphanFile : DcmFile :=
  { fn := [98], dataset := itemOf [(DCM_SOPInstanceUID, [50])], metaInfo := itemOf [] }

/-- Three series descriptors: patients ("1","1"), ("1","2"), ("2","2") as
(PatientID, IssuerOfPatientID), names "C", "B", "A", studies "1", "2", "3" dated "1", "2",
"3". -/
def seriesA : SeriesInfo :=
  { PatientID := [49], IssuerOfPatientID := [49], PatientName := [67],
    StudyInstanceUID := [49], StudyDate := [49], SeriesInstanceUID := [49] }

/-- See `seriesA`. -/
def seriesB : SeriesInfo :=
  { PatientID := [49], IssuerOfPatientID := [50], PatientName := [66],
    StudyInstanceUID := [50], StudyDate := [50], SeriesInstanceUID := [50] }

/-- See `seriesA`. -/
def seriesC : SeriesInfo :=
  { PatientID := [50], IssuerOfPatientID := [50], PatientName := [65],
    StudyInstanceUID := [51], StudyDate := [51], SeriesInstanceUID := [51] }

/-- A paired body part slice without position: view "CC", laterality "R". -/
def pairedR : SliceInfo :=
  { SOPInstanceUID := [49], FileName := [97], ViewPosition := strCC, Laterality := [82] }

/-- A paired body part slice without position: view "CC", laterality "L". -/
def pairedL : SliceInfo :=
  { SOPInstanceUID := [50], FileName := [98], ViewPosition := strCC, Laterality := [76] }

/-- A slice with identifier "1", file name "a" and nothing else. -/
def plainA : SliceInfo := { SOPInstanceUID := [49], FileName := [97] }

/-- As `plainA`, with identifier "2". -/
def plainB : SliceInfo := { SOPInstanceUID := [50], FileName := [97] }

/-- As `plainA`, with file name "b". -/
def plainC : SliceInfo := { SOPInstanceUID := [49], FileName := [98] }

/-- A dataset with SOPInstanceUID "1" and the one-component PixelSpacing "2". -/
def shortSpacingItem : DcmItem := itemOf [(DCM_SOPInstanceUID, [49]), (DCM_PixelSpacing, [50])]

/-- The dataset `shortSpacingItem` without its PixelSpacing. -/
def noSpacingItem : DcmItem := itemOf [(DCM_SOPInstanceUID, [49])]

/-- A series of study "1" with SeriesInstanceUID "1", SeriesNumber 2 and the single slice
CC/R. -/
def pairedSeriesR : SeriesInfo :=
  { StudyInstanceUID := [49], SeriesInstanceUID := [49], SeriesNumber := 2,
    slices := [pairedR] }

/-- A series of study "1" with SeriesInstanceUID "2", SeriesNumber 1 and the single slice
CC/L. -/
def pairedSeriesL : SeriesInfo :=
  { StudyInstanceUID := [49], SeriesInstanceUID := [50], SeriesNumber := 1,
    slices := [pairedL] }

/-- The geometric scenario at the edge of the tolerance: slice A at (0,0,0) with slice
location 1. -/
def edgeA : SliceInfo := { geomA with SliceLocation := 1 }

/-- The geometric scenario at the edge of the tolerance: slice B at (0,0,z) with slice
location 0, where z = 7378697629483821 / 2^67 is the double written `0.00005`. -/
def edgeB : SliceInfo :=
  { geomB with
    ImagePositionPatient := [0, 0, Double.fin (7378697629483821 / 2 ^ 67)], SliceLocation := 0 }

/-- A slice without position, with acquisition number 1, whose slice location is the double
written `0.0001`, that is 7378697629483821 / 2^66. -/
def tolA : SliceInfo :=
  { SOPInstanceUID := [49], FileName := [97],
    SliceLocation := Double.fin (7378697629483821 / 2 ^ 66), AcquisitionNumber := 1 }

/-- A slice without position, with acquisition number 2 and slice location 0. -/
def tolB : SliceInfo :=
  { SOPInstanceUID := [50], FileName := [98], SliceLocation := 0, AcquisitionNumber := 2 }

/-- The vector (0.6, 0.8, 0) in doubles. -/
def slantA : Vector3D := [Double.round (3 / 5), Double.round (4 / 5), 0]

/-- The vector (0, 0.6, 0.8) in doubles. -/
def slantB : Vector3D := [0, Double.round (3 / 5), Double.round (4 / 5)]

/-- File "b": as `patientFile1` (PatientID "1", IssuerOfPatientID "1", study "1.2.3", no
SeriesInstanceUID) with SOPInstanceUID "2" and PatientName "B". -/
def patientFile4 : DcmFile :=
  { fn := [98]
    dataset := itemOf [(DCM_SOPInstanceUID, [50]), (DCM_StudyInstanceUID, [49, 46, 50, 46, 51]),
      (DCM_PatientID, [49]), (DCM_IssuerOfPatientID, [49]), (DCM_PatientName, [66])]
    metaInfo := itemOf [] }

/-- File "a": series "1" of study "1", series number 2, a single view CC/R without
position. -/
def viewFileA : DcmFile :=
  { fn := [97]
    dataset := itemOf [(DCM_SOPInstanceUID, [49]), (DCM_StudyInstanceUID, [49]),
      (DCM_SeriesInstanceUID, [49]), (DCM_SeriesNumber, [50]), (DCM_ViewPosition, strCC),
      (DCM_ImageLaterality, [82])]
    metaInfo := itemOf [] }

/-- File "b": series "2" of study "1", series number 1, a single view ML/R without
position. -/
def viewFileB : DcmFile :=
  { fn := [98]
    dataset := itemOf [(DCM_SOPInstanceUID, [50]), (DCM_StudyInstanceUID, [49]),
      (DCM_SeriesInstanceUID, [50]), (DCM_SeriesNumber, [49]), (DCM_ViewPosition, strML),
      (DCM_ImageLaterality, [82])]
    metaInfo := itemOf [] }

/-- File "c": series "1" of study "1", series number 2, the view CC/L. -/
def viewFileC : DcmFile :=
  { fn := [99]
    dataset := itemOf [(DCM_SOPInstanceUID, [51]), (DCM_StudyInstanceUID, [49]),
      (DCM_SeriesInstanceUID, [49]), (DCM_SeriesNumber, [50]), (DCM_ViewPosition, strCC),
      (DCM_ImageLaterality, [76])]
    metaInfo := itemOf [] }

/-- File "d": series "2" of study "1", series number 1, the view ML/L. -/
def viewFileD : DcmFile :=
  { fn := [100]
    dataset := itemOf [(DCM_SOPInstanceUID, [52]), (DCM_StudyInstanceUID, [49]),
      (DCM_SeriesInstanceUID, [50]), (DCM_SeriesNumber, [49]), (DCM_ViewPosition, strML),
      (DCM_ImageLaterality, [76])]
    metaInfo := itemOf [] }

/-- File "b": as `viewFileB` without SeriesInstanceUID. -/
def bareFileB : DcmFile :=
  { fn := [98]
    dataset := itemOf [(DCM_SOPInstanceUID, [50]), (DCM_StudyInstanceUID, [49]),
      (DCM_SeriesNumber, [49]), (DCM_ViewPosition, strML), (DCM_ImageLaterality, [82])]
    metaInfo := itemOf [] }

/-- File "d": as `viewFileD` without SeriesInstanceUID. -/
def bareFileD : DcmFile :=
  { fn := [100]
    dataset := itemOf [(DCM_SOPInstanceUID, [52]), (DCM_StudyInstanceUID, [49]),
      (DCM_SeriesNumber, [49]), (DCM_ViewPosition, strML), (DCM_ImageLaterality, [76])]
    metaInfo := itemOf [] }

/-- File "c": SOPInstanceUID "3", SeriesInstanceUID "7", StudyInstanceUID "1", with
StudyDate "5", SeriesNumber "9" and Modality "M". -/
def studyFile4 : DcmFile :=
  { fn := [99]
    dataset := itemOf [(DCM_SOPInstanceUID, [51]), (DCM_SeriesInstanceUID, [55]),
      (DCM_StudyInstanceUID, [49]), (DCM_StudyDate, [53]), (DCM_SeriesNumber, [57]),
      (DCM_Modality, [77])]
    metaInfo := itemOf [] }

/-- File "a": SOPInstanceUID "1", SeriesInstanceUID "7", StudyInstanceUID "1", PatientID "1",
IssuerOfPatientID "1", PatientName "A". -/
def ownerFile1 : DcmFile :=
  { fn := [97]
    dataset := itemOf [(DCM_SOPInstanceUID, [49]), (DCM_SeriesInstanceUID, [55]),
      (DCM_StudyInstanceUID, [49]), (DCM_PatientID, [49]), (DCM_IssuerOfPatientID, [49]),
      (DCM_PatientName, [65])]
    metaInfo := itemOf [] }

/-- File "b": SOPInstanceUID "2", SeriesInstanceUID "7", StudyInstanceUID "1", PatientID "2",
IssuerOfPatientID "2", PatientName "B". -/
def ownerFile2 : DcmFile :=
  { fn := [98]
    dataset := itemOf [(DCM_SOPInstanceUID, [50]), (DCM_SeriesInstanceUID, [55]),
      (DCM_StudyInstanceUID, [49]), (DCM_PatientID, [50]), (DCM_IssuerOfPatientID, [50]),
      (DCM_PatientName, [66])]
    metaInfo := itemOf [] }

/-- File "c": SOPInstanceUID "3", no SeriesInstanceUID, StudyInstanceUID "1.2.3",
PatientID "1", IssuerOfPatientID "1", PatientName "C", PatientBirthDate "1", StudyDate "5",
SeriesNumber "9". -/
def patientFile5 : DcmFile :=
  { fn := [99]
    dataset := itemOf [(DCM_SOPInstanceUID, [51]), (DCM_StudyInstanceUID, [49, 46, 50, 46, 51]),
      (DCM_PatientID, [49]), (DCM_IssuerOfPatientID, [49]), (DCM_PatientName, [67]),
      (DCM_PatientBirthDate, [49]), (DCM_StudyDate, [53]), (DCM_SeriesNumber, [57])]
    metaInfo := itemOf [] }

/-- File "c" of series "7" of study "1": no position, SliceLocation "0",
AcquisitionNumber "3"; its slice is `chainC`. -/
def flatFile : DcmFile :=
  { fn := [99]
    dataset := itemOf [(DCM_SOPInstanceUID, [51]), (DCM_SeriesInstanceUID, [55]),
      (DCM_StudyInstanceUID, [49]), (DCM_SliceLocation, [48]), (DCM_AcquisitionNumber, [51])]
    metaInfo := itemOf [] }

/-! ## Auxiliary facts: doubles -/

theorem lit0001_eq : lit0001 = Double.fin (7378697629483821 / 2 ^ 66) := by decide!

theorem lit01_eq : lit01 = Double.fin (3602879701896397 / 2 ^ 55) := by decide!

theorem lit00000001_eq : lit00000001 = Double.fin (3022314549036573 / 2 ^ 78) := by decide!

theorem dbl_round_zero : Double.round 0 = Double.fin 0 := by simp [Double.round]

theorem dbl_neg_neg (x : Double) : Double.neg (Double.neg x) = x := by
  cases x <;> simp [Double.neg]

theorem dbl_round_neg (q : ℚ) : Double.round (-q) = Double.neg (Double.round q) := by
  unfold Double.round
  rcases lt_trichotomy q 0 with h | h | h
  · have h1 : ¬ (-q = 0) := by intro e; linarith
    have h2 : 0 < -q := by linarith
    have h3 : ¬ (q = 0) := ne_of_lt h
    have h4 : ¬ (0 < q) := not_lt.mpr (le_of_lt h)
    rw [if_neg h1, if_pos h2, if_neg h3, if_neg h4, dbl_neg_neg]
  · subst h
    simp [Double.neg]
  · have h1 : ¬ (-q = 0) := by intro e; linarith
    have h2 : ¬ (0 < -q) := by intro e; linarith
    have h3 : ¬ (q = 0) := ne_of_gt h
    rw [if_neg h1, if_neg h2, if_neg h3, if_pos h, neg_neg]

theorem dbl_sub_self (x : Double) : (Double.sub x x).isZeroOrNaN = true := by
  cases x with
  | nan => simp [Double.sub, Double.neg, Double.add, Double.isZeroOrNaN]
  | inf s => cases s <;> simp [Double.sub, Double.neg, Double.add, Double.isZeroOrNaN]
  | fin q => simp [Double.sub, Double.neg, Double.add, dbl_round_zero, Double.isZeroOrNaN]

theorem dbl_sub_self_fin (q : ℚ) : Double.sub (Double.fin q) (Double.fin q) = Double.fin 0 := by
  simp [Double.sub, Double.neg, Double.add, dbl_round_zero]

theorem dbl_mul_zeroOrNaN (x y : Double) (h : y.isZeroOrNaN = true) :
    (Double.mul x y).isZeroOrNaN = true := by
  cases y with
  | nan => cases x <;> simp [Double.mul, Double.isZeroOrNaN]
  | inf s => simp [Double.isZeroOrNaN] at h
  | fin q =>
    have hq : q = 0 := by simpa [Double.isZeroOrNaN] using h
    subst hq
    cases x <;> simp [Double.mul, dbl_round_zero, Double.isZeroOrNaN]

theorem dbl_add_zeroOrNaN (x y : Double) (hx : x.isZeroOrNaN = true)
    (hy : y.isZeroOrNaN = true) : (Double.add x y).isZeroOrNaN = true := by
  cases x with
  | nan => cases y <;> simp [Double.add, Double.isZeroOrNaN]
  | inf s => simp [Double.isZeroOrNaN] at hx
  | fin q =>
    have hq : q = 0 := by simpa [Double.isZeroOrNaN] using hx
    subst hq
    cases y with
    | nan => simp [Double.add, Double.isZeroOrNaN]
    | inf s => simp [Double.isZeroOrNaN] at hy
    | fin r =>
      have hr : r = 0 := by simpa [Double.isZeroOrNaN] using hy
      subst hr
      simp [Double.add, dbl_round_zero, Double.isZeroOrNaN]

theorem dbl_not_lit_lt_abs (x : Double) (h : x.isZeroOrNaN = true) :
    Double.lt lit0001 (Double.abs x) = false := by
  rw [lit0001_eq]
  cases x with
  | nan => simp [Double.abs, Double.lt]
  | inf s => simp [Double.isZeroOrNaN] at h
  | fin q =>
    have hq : q = 0 := by simpa [Double.isZeroOrNaN] using h
    subst hq
    simp only [Double.abs, Double.lt, abs_zero, decide_eq_false_iff_not, not_lt]
    positivity

theorem dbl_foldl_zeroOrNaN (l : List Double) (acc : Double)
    (hl : ∀ t ∈ l, t.isZeroOrNaN = true) (hacc : acc.isZeroOrNaN = true) :
    (l.foldl Double.add acc).isZeroOrNaN = true := by
  induction l generalizing acc with
  | nil => simpa using hacc
  | cons t ts ih =>
    simp only [List.foldl_cons]
    exact ih _ (fun u hu => hl u (List.mem_cons_of_mem t hu))
      (dbl_add_zeroOrNaN _ _ hacc (hl t (List.mem_cons_self t ts)))

theorem vsum_zeroOrNaN (l : Valarray) (hl : ∀ t ∈ l, t.isZeroOrNaN = true) :
    (vsum l).isZeroOrNaN = true := by
  unfold vsum
  cases hr : l.reverse with
  | nil => simp [Double.isZeroOrNaN, OfNat.ofNat]
  | cons x xs =>
    have hmem : ∀ t ∈ x :: xs, t.isZeroOrNaN = true := by
      intro t ht
      rw [← hr] at ht
      exact hl t (List.mem_reverse.mp ht)
    exact dbl_foldl_zeroOrNaN xs x (fun t ht => hmem t (List.mem_cons_of_mem x ht))
      (hmem x (List.mem_cons_self x xs))

theorem vmul_vsub_self (u p : Valarray) : ∀ t ∈ vmul u (vsub p p), t.isZeroOrNaN = true := by
  induction u generalizing p with
  | nil => simp [vmul]
  | cons x xs ih =>
    cases p with
    | nil => simp [vmul, vsub]
    | cons y ys =>
      intro t ht
      simp only [vmul, vsub, List.zipWith_cons_cons, List.mem_cons] at ht
      rcases ht with ht | ht
      · rw [ht]
        exact dbl_mul_zeroOrNaN _ _ (dbl_sub_self y)
      · exact ih ys t ht

theorem SliceInfo.dist_same_position (a b : SliceInfo)
    (h : a.ImagePositionPatient = b.ImagePositionPatient) :
    (a.dist b).isZeroOrNaN = true := by
  unfold SliceInfo.dist
  rw [h]
  exact vsum_zeroOrNaN _ (vmul_vsub_self _ _)

/-! ## Auxiliary facts: strings and the slice ordering -/

theorem strLt_irrefl (s : Str) : strLt s s = false := by
  induction s with
  | nil => rfl
  | cons x xs ih => simp [strLt, ih]

theorem strLt_total (s t : Str) (h : s ≠ t) : strLt s t = true ∨ strLt t s = true := by
  induction s generalizing t with
  | nil =>
    cases t with
    | nil => exact absurd rfl h
    | cons y ys => exact Or.inl rfl
  | cons x xs ih =>
    cases t with
    | nil => exact Or.inr rfl
    | cons y ys =>
      rcases Nat.lt_trichotomy x y with hxy | hxy | hxy
      · left; simp [strLt, hxy]
      · subst hxy
        have hne : xs ≠ ys := fun e => h (by rw [e])
        rcases ih ys hne with h1 | h1
        · left; simp [strLt, h1]
        · right; simp [strLt, h1]
      · right; simp [strLt, hxy]

theorem strLt_asymm (s t : Str) (h : strLt s t = true) : strLt t s = false := by
  induction s generalizing t with
  | nil =>
    cases t with
    | nil => rfl
    | cons y ys => rfl
  | cons x xs ih =>
    cases t with
    | nil => simp [strLt] at h
    | cons y ys =>
      rcases Nat.lt_trichotomy x y with hxy | hxy | hxy
      · have hyx : ¬ y < x := Nat.lt_asymm hxy
        simp [strLt, hxy, hyx]
      · subst hxy
        simp only [strLt, Nat.lt_irrefl, if_false] at h ⊢
        exact ih ys h
      · have hyx : ¬ x < y := Nat.lt_asymm hxy
        simp [strLt, hxy, hyx] at h

theorem strLt_flip (s t : Str) (h : s ≠ t) : strLt t s = !strLt s t := by
  cases hst : strLt s t with
  | true => simpa using strLt_asymm s t hst
  | false =>
    rcases strLt_total s t h with h1 | h1
    · rw [hst] at h1; exact absurd h1 (by simp)
    · simpa using h1

theorem SliceInfo.ltScalar_self (a : SliceInfo) : a.ltScalar a = false := by
  simp [SliceInfo.ltScalar, strLt_irrefl, dbl_not_lit_lt_abs _ (dbl_sub_self a.SliceLocation)]

theorem SliceInfo.ltPaired_of_equal (a b : SliceInfo)
    (hvp : a.ViewPosition = b.ViewPosition) (hlat : a.Laterality = b.Laterality) :
    a.ltPaired b = a.ltScalar b := by
  unfold SliceInfo.ltPaired
  rw [if_neg (not_not.mpr hvp), if_neg (not_not.mpr hlat)]
  simp

theorem SliceInfo.ltPaired_of_empty (a b : SliceInfo) (ha : a.Laterality = []) :
    a.ltPaired b = a.ltScalar b := by
  simp [SliceInfo.ltPaired, ha]

theorem SliceInfo.lt_of_dist_zero (a b : SliceInfo) (hg : a.hasGeometry = b.hasGeometry)
    (hd : (a.dist b).isZeroOrNaN = true) : a.lt b = a.ltPaired b := by
  unfold SliceInfo.lt
  rw [if_neg (not_not.mpr hg)]
  have h0 : ¬ (Double.lt lit0001 (Double.abs (a.dist b)) = true) := by
    rw [dbl_not_lit_lt_abs _ hd]
    simp
  by_cases hc : a.geomCond b = true
  · rw [if_pos hc, if_neg h0]
  · rw [if_neg hc]

theorem SliceInfo.lt_of_no_position (a b : SliceInfo)
    (ha : a.HasImagePositionPatient = false) (hb : b.HasImagePositionPatient = false) :
    a.lt b = a.ltPaired b := by
  unfold SliceInfo.lt
  have hg : a.hasGeometry = b.hasGeometry := by simp [SliceInfo.hasGeometry, ha, hb]
  have hc : ¬ (a.geomCond b = true) := by simp [SliceInfo.geomCond, ha]
  rw [if_neg (not_not.mpr hg), if_neg hc]

theorem SliceInfo.lt_self (a : SliceInfo) : a.lt a = false := by
  rw [SliceInfo.lt_of_dist_zero a a rfl (SliceInfo.dist_same_position a a rfl),
    SliceInfo.ltPaired_of_equal a a rfl rfl, SliceInfo.ltScalar_self]

/-! ## Auxiliary facts: evaluated examples -/

theorem wideA_lt_wideB : wideA.lt wideB = true := by decide!

theorem wideB_lt_wideA : wideB.lt wideA = true := by decide!

theorem cross_unit_axes : cross [1, 0, 0] [0, 1, 0] = [0, 0, 1] := by decide!

/-! ## Auxiliary facts: symmetry and sign of the double operations -/

theorem dbl_zero_eq : (0 : Double) = Double.fin 0 := by
  show Double.fin ((0 : ℕ) : ℚ) = Double.fin 0
  simp

theorem dbl_add_comm (x y : Double) : Double.add x y = Double.add y x := by
  cases x with
  | nan => cases y <;> simp [Double.add]
  | inf s =>
    cases y with
    | nan => simp [Double.add]
    | inf t => cases s <;> cases t <;> simp [Double.add]
    | fin r => simp [Double.add]
  | fin q =>
    cases y with
    | nan => simp [Double.add]
    | inf t => simp [Double.add]
    | fin r => simp [Double.add, add_comm]

theorem dbl_add_neg_neg (x y : Double) :
    Double.add (Double.neg x) (Double.neg y) = Double.neg (Double.add x y) := by
  cases x with
  | nan => cases y <;> simp [Double.add, Double.neg]
  | inf s =>
    cases y with
    | nan => simp [Double.add, Double.neg]
    | inf t => cases s <;> cases t <;> simp [Double.add, Double.neg]
    | fin r => simp [Double.add, Double.neg]
  | fin q =>
    cases y with
    | nan => simp [Double.add, Double.neg]
    | inf t => simp [Double.add, Double.neg]
    | fin r =>
      show Double.round (-q + -r) = Double.neg (Double.round (q + r))
      rw [← dbl_round_neg]
      congr 1
      ring

theorem dbl_sub_swap (x y : Double) : Double.sub x y = Double.neg (Double.sub y x) := by
  unfold Double.sub
  rw [← dbl_add_neg_neg, dbl_neg_neg, dbl_add_comm]

theorem dbl_mul_neg (x y : Double) :
    Double.mul x (Double.neg y) = Double.neg (Double.mul x y) := by
  cases x with
  | nan => cases y <;> simp [Double.mul, Double.neg]
  | inf s =>
    cases y with
    | nan => simp [Double.mul, Double.neg]
    | inf t => cases s <;> cases t <;> simp [Double.mul, Double.neg]
    | fin r =>
      simp only [Double.mul, Double.neg]
      by_cases hr : r = 0
      · simp [hr, Double.neg]
      · have hr' : ¬ (-r = 0) := by simpa using hr
        rw [if_neg hr, if_neg hr']
        simp only [Double.neg]
        rcases lt_or_gt_of_ne hr with h | h
        · have h1 : ¬ (-r < 0) := by linarith
          cases s <;> simp [h, h1]
        · have h1 : -r < 0 := by linarith
          have h2 : ¬ (r < 0) := by linarith
          cases s <;> simp [h1, h2]
  | fin q =>
    cases y with
    | nan => simp [Double.mul, Double.neg]
    | inf t =>
      simp only [Double.mul, Double.neg]
      by_cases hq : q = 0
      · simp [hq, Double.neg]
      · rw [if_neg hq, if_neg hq]
        cases t <;> simp [Double.neg]
    | fin r =>
      show Double.round (q * -r) = Double.neg (Double.round (q * r))
      rw [← dbl_round_neg]
      congr 1
      ring

theorem dbl_abs_neg (x : Double) : Double.abs (Double.neg x) = Double.abs x := by
  cases x <;> simp [Double.abs, Double.neg]

theorem dbl_lt_zero_neg (x : Double) : Double.lt 0 (Double.neg x) = Double.lt x 0 := by
  rw [dbl_zero_eq]
  cases x <;> simp [Double.lt, Double.neg]

theorem dbl_foldl_neg (l : List Double) (acc : Double) :
    (l.map Double.neg).foldl Double.add (Double.neg acc)
      = Double.neg (l.foldl Double.add acc) := by
  induction l generalizing acc with
  | nil => rfl
  | cons t ts ih =>
    simp only [List.map_cons, List.foldl_cons]
    rw [dbl_add_neg_neg]
    exact ih _

theorem vsum_map_neg (l : Valarray) : vsum (l.map Double.neg) = Double.neg (vsum l) := by
  unfold vsum
  rw [← List.map_reverse]
  cases l.reverse with
  | nil => simp [dbl_zero_eq, Double.neg]
  | cons x xs =>
    simp only [List.map_cons]
    exact dbl_foldl_neg xs x

theorem vmul_swap (n m p q : Valarray) :
    vmul (vadd m n) (vsub p q) = (vmul (vadd n m) (vsub q p)).map Double.neg := by
  induction n generalizing m p q with
  | nil => cases m <;> simp [vmul, vadd]
  | cons x xs ih =>
    cases m with
    | nil => simp [vmul, vadd]
    | cons y ys =>
      cases p with
      | nil => simp [vmul, vsub]
      | cons c cs =>
        cases q with
        | nil => simp [vmul, vsub]
        | cons d ds =>
          have h := ih ys cs ds
          simp only [vmul, vadd, vsub] at h
          simp only [vmul, vadd, vsub, List.zipWith_cons_cons, List.map_cons, h]
          rw [dbl_add_comm y x, dbl_sub_swap c d, dbl_mul_neg]

theorem SliceInfo.dist_swap (a b : SliceInfo) : b.dist a = Double.neg (a.dist b) := by
  unfold SliceInfo.dist
  rw [vmul_swap, vsum_map_neg]

/-! ## Auxiliary facts: the geometric condition on shared finite values -/

theorem dbl_nearestEven_nonneg (n : ℚ) (h : 0 ≤ n) : 0 ≤ Double.nearestEven n := by
  have hf : 0 ≤ ⌊n⌋ := Int.floor_nonneg.mpr h
  unfold Double.nearestEven
  split_ifs <;> omega

theorem dbl_roundPos_nonneg (q : ℚ) (h : 0 < q) : (Double.roundPos q).isNonneg = true := by
  have hu : (0 : ℚ) < 2 ^ (Double.exponent q - 52) := zpow_pos (by norm_num) _
  have hm : (0 : ℚ) ≤ Double.nearestEven (q / 2 ^ (Double.exponent q - 52)) := by
    exact_mod_cast dbl_nearestEven_nonneg _ (le_of_lt (div_pos h hu))
  unfold Double.roundPos
  split_ifs
  · rfl
  · simp only [Double.isNonneg, decide_eq_true_eq]
    exact mul_nonneg hm (le_of_lt hu)

theorem dbl_round_nonneg (q : ℚ) (h : 0 ≤ q) : (Double.round q).isNonneg = true := by
  unfold Double.round
  rcases eq_or_lt_of_le h with h0 | h0
  · rw [if_pos h0.symm]
    simp [Double.isNonneg]
  · rw [if_neg (ne_of_gt h0), if_pos h0]
    exact dbl_roundPos_nonneg q h0

theorem dbl_add_nonneg (x y : Double) (hx : x.isNonneg = true) (hy : y.isNonneg = true) :
    (Double.add x y).isNonneg = true := by
  cases x with
  | nan => simp [Double.isNonneg] at hx
  | inf s =>
    cases y with
    | nan => simp [Double.isNonneg] at hy
    | inf t =>
      simp only [Double.isNonneg, Bool.not_eq_true'] at hx hy
      subst hx hy
      simp [Double.add, Double.isNonneg]
    | fin r => simpa [Double.add, Double.isNonneg] using hx
  | fin q =>
    cases y with
    | nan => simp [Double.isNonneg] at hy
    | inf t => simpa [Double.add, Double.isNonneg] using hy
    | fin r =>
      simp only [Double.isNonneg, decide_eq_true_eq] at hx hy
      simp only [Double.add]
      exact dbl_round_nonneg _ (add_nonneg hx hy)

theorem dbl_foldl_nonneg (l : List Double) (acc : Double)
    (hl : ∀ t ∈ l, t.isNonneg = true) (hacc : acc.isNonneg = true) :
    (l.foldl Double.add acc).isNonneg = true := by
  induction l generalizing acc with
  | nil => simpa using hacc
  | cons t ts ih =>
    simp only [List.foldl_cons]
    exact ih _ (fun u hu => hl u (List.mem_cons_of_mem t hu))
      (dbl_add_nonneg _ _ hacc (hl t (List.mem_cons_self t ts)))

theorem vsum_nonneg (l : Valarray) (hl : ∀ t ∈ l, t.isNonneg = true) :
    (vsum l).isNonneg = true := by
  unfold vsum
  cases hr : l.reverse with
  | nil => simp [dbl_zero_eq, Double.isNonneg]
  | cons x xs =>
    have hmem : ∀ t ∈ x :: xs, t.isNonneg = true := by
      intro t ht
      rw [← hr] at ht
      exact hl t (List.mem_reverse.mp ht)
    exact dbl_foldl_nonneg xs x (fun t ht => hmem t (List.mem_cons_of_mem x ht))
      (hmem x (List.mem_cons_self x xs))

theorem sqr_nonneg_of_finite (v : Valarray) (hv : ∀ x ∈ v, x.isFinite = true) :
    (sqr v).isNonneg = true := by
  unfold sqr
  apply vsum_nonneg
  induction v with
  | nil => simp [vmul]
  | cons x xs ih =>
    intro t ht
    simp only [vmul, List.zipWith_cons_cons, List.mem_cons] at ht
    rcases ht with ht | ht
    · rw [ht]
      cases x with
      | nan => simp [Double.isFinite] at hv
      | inf s => simp [Double.isFinite] at hv
      | fin q =>
        simp only [Double.mul]
        exact dbl_round_nonneg _ (mul_self_nonneg q)
    · exact ih (fun y hy => hv y (List.mem_cons_of_mem x hy)) t ht

theorem dbl_foldl_zero (l : List Double) (hl : ∀ t ∈ l, t = Double.fin 0) :
    l.foldl Double.add (Double.fin 0) = Double.fin 0 := by
  induction l with
  | nil => rfl
  | cons t ts ih =>
    simp only [List.foldl_cons]
    rw [hl t (List.mem_cons_self t ts)]
    have h0 : Double.add (Double.fin 0) (Double.fin 0) = Double.fin 0 := by
      simp [Double.add, dbl_round_zero]
    rw [h0]
    exact ih (fun u hu => hl u (List.mem_cons_of_mem t hu))

theorem vsum_zero (l : Valarray) (hl : ∀ t ∈ l, t = Double.fin 0) : vsum l = Double.fin 0 := by
  unfold vsum
  cases hr : l.reverse with
  | nil => exact dbl_zero_eq
  | cons x xs =>
    have hmem : ∀ t ∈ x :: xs, t = Double.fin 0 := by
      intro t ht
      rw [← hr] at ht
      exact hl t (List.mem_reverse.mp ht)
    simp only []
    rw [hmem x (List.mem_cons_self x xs)]
    exact dbl_foldl_zero xs (fun t ht => hmem t (List.mem_cons_of_mem x ht))

theorem sqr_vsub_self (v : Valarray) (hv : ∀ x ∈ v, x.isFinite = true) :
    sqr (vsub v v) = Double.fin 0 := by
  unfold sqr
  apply vsum_zero
  induction v with
  | nil => simp [vmul, vsub]
  | cons x xs ih =>
    intro t ht
    simp only [vmul, vsub, List.zipWith_cons_cons, List.mem_cons] at ht
    rcases ht with ht | ht
    · rw [ht]
      cases x with
      | nan => simp [Double.isFinite] at hv
      | inf s => simp [Double.isFinite] at hv
      | fin q => simp [dbl_sub_self_fin, Double.mul, dbl_round_zero]
    · exact ih (fun y hy => hv y (List.mem_cons_of_mem x hy)) t ht

theorem dbl_le_zero_nonneg (x : Double) (hx : x.isNonneg = true) :
    Double.le (Double.fin 0) x = true := by
  cases x with
  | nan => simp [Double.isNonneg] at hx
  | inf s => simpa [Double.le, Double.isNonneg] using hx
  | fin q => simpa [Double.le, Double.isNonneg] using hx

theorem dbl_mul_lit01_nonneg (x : Double) (hx : x.isNonneg = true) :
    (Double.mul lit01 x).isNonneg = true := by
  rw [lit01_eq]
  cases x with
  | nan => simp [Double.isNonneg] at hx
  | inf s =>
    simp only [Double.isNonneg, Bool.not_eq_true'] at hx
    subst hx
    have h1 : ¬ ((3602879701896397 : ℚ) / 2 ^ 55 = 0) := by norm_num
    have h2 : ¬ ((3602879701896397 : ℚ) / 2 ^ 55 < 0) := by norm_num
    simp [Double.mul, Double.isNonneg, h1, h2]
  | fin q =>
    simp only [Double.isNonneg, decide_eq_true_eq] at hx
    simp only [Double.mul]
    exact dbl_round_nonneg _ (mul_nonneg (by norm_num) hx)

theorem SliceInfo.geomCond_of_shared (a b : SliceInfo)
    (ha : a.HasImagePositionPatient = true ∧ a.HasOrientation = true)
    (htilt : a.GantryTilt = b.GantryTilt) (hkind : a.SpacingType = b.SpacingType)
    (hps : a.PixelSpacing = b.PixelSpacing)
    (h0 : a.Orientation0 = b.Orientation0) (h1 : a.Orientation1 = b.Orientation1)
    (hft : a.GantryTilt.isFinite = true)
    (hfp : ∀ x ∈ a.PixelSpacing, x.isFinite = true)
    (hf0 : ∀ x ∈ a.Orientation0, x.isFinite = true)
    (hf1 : ∀ x ∈ a.Orientation1, x.isFinite = true) :
    a.geomCond b = true := by
  have e1 : Double.le (Double.abs (Double.sub a.GantryTilt b.GantryTilt)) 10 = true := by
    rw [← htilt]
    cases hq : a.GantryTilt with
    | nan => rw [hq] at hft; simp [Double.isFinite] at hft
    | inf s => rw [hq] at hft; simp [Double.isFinite] at hft
    | fin q =>
      rw [dbl_sub_self_fin]
      show Double.le (Double.abs (Double.fin 0)) (Double.fin ((10 : ℕ) : ℚ)) = true
      simp [Double.abs, Double.le]
  have e2 : Double.le (sqr (vsub a.PixelSpacing b.PixelSpacing))
      (Double.mul lit01 (sqr a.PixelSpacing)) = true := by
    rw [← hps, sqr_vsub_self _ hfp]
    exact dbl_le_zero_nonneg _ (dbl_mul_lit01_nonneg _ (sqr_nonneg_of_finite _ hfp))
  have e3 : Double.le (sqr (vsub a.Orientation0 b.Orientation0)) lit00000001 = true := by
    rw [← h0, sqr_vsub_self _ hf0, lit00000001_eq]
    simp only [Double.le, decide_eq_true_eq]
    positivity
  have e4 : Double.le (sqr (vsub a.Orientation1 b.Orientation1)) lit00000001 = true := by
    rw [← h1, sqr_vsub_self _ hf1, lit00000001_eq]
    simp only [Double.le, decide_eq_true_eq]
    positivity
  unfold SliceInfo.geomCond
  rw [ha.1, ha.2, e1, e2, e3, e4, hkind]
  simp

/-! ## Auxiliary facts: rounding keeps numbers of size one away from the tolerance -/

theorem dbl_exponent_spec (q : ℚ) :
    Double.exponent q = -1022 ∨ (2 : ℚ) ^ Double.exponent q ≤ q := by
  unfold Double.exponent
  split_ifs with h1 h2
  · exact Or.inr h1.2
  · exact Or.inr h2.2
  · exact Or.inl rfl

theorem dbl_ulp_le (q : ℚ) (h : 1 ≤ q) : (2 : ℚ) ^ (Double.exponent q - 52) ≤ q / 2 ^ 52 := by
  have h52 : (0 : ℚ) < 2 ^ 52 := by positivity
  have hsplit : (2 : ℚ) ^ (Double.exponent q - 52) = 2 ^ Double.exponent q / 2 ^ 52 := by
    rw [zpow_sub₀ (by norm_num : (2 : ℚ) ≠ 0)]
    norm_cast
  rw [hsplit]
  apply div_le_div_of_nonneg_right _ (le_of_lt h52)
  rcases dbl_exponent_spec q with he | he
  · rw [he]
    have : (2 : ℚ) ^ (-1022 : Int) ≤ 1 := by
      rw [zpow_neg]
      apply inv_le_one_of_one_le₀
      exact one_le_zpow₀ (by norm_num) (by norm_num)
    linarith
  · exact he

theorem dbl_nearestEven_ge (n : ℚ) : n - 1 ≤ (Double.nearestEven n : ℚ) := by
  have hf : n - 1 < (⌊n⌋ : ℚ) := Int.sub_one_lt_floor n
  unfold Double.nearestEven
  split_ifs
  · exact le_of_lt hf
  · push_cast; linarith
  · exact le_of_lt hf
  · push_cast; linarith

theorem dbl_roundPos_ge_half (q : ℚ) (h : 1 ≤ q) :
    Double.roundPos q = Double.inf false ∨ ∃ r, Double.roundPos q = Double.fin r ∧ 1 / 2 ≤ r := by
  have hu : (0 : ℚ) < 2 ^ (Double.exponent q - 52) := zpow_pos (by norm_num) _
  have hle := dbl_ulp_le q h
  have hm := dbl_nearestEven_ge (q / 2 ^ (Double.exponent q - 52))
  have hval : 1 / 2 ≤ (Double.nearestEven (q / 2 ^ (Double.exponent q - 52)) : ℚ)
      * 2 ^ (Double.exponent q - 52) := by
    have h1 : (q / 2 ^ (Double.exponent q - 52) - 1) * 2 ^ (Double.exponent q - 52)
        ≤ (Double.nearestEven (q / 2 ^ (Double.exponent q - 52)) : ℚ)
          * 2 ^ (Double.exponent q - 52) :=
      mul_le_mul_of_nonneg_right hm (le_of_lt hu)
    have h2 : (q / 2 ^ (Double.exponent q - 52) - 1) * 2 ^ (Double.exponent q - 52)
        = q - 2 ^ (Double.exponent q - 52) := by
      field_simp
    have h3 : q / 2 ^ 52 ≤ q / 2 := by
      apply div_le_div_of_nonneg_left (by linarith) (by norm_num) (by norm_num)
    linarith
  unfold Double.roundPos
  split_ifs
  · exact Or.inl rfl
  · exact Or.inr ⟨_, rfl, hval⟩

theorem dbl_lit_lt_abs_round (q : ℚ) (h : 1 ≤ |q|) :
    Double.lt lit0001 (Double.abs (Double.round q)) = true := by
  have hpos : ∀ x : ℚ, 1 ≤ x → Double.lt lit0001 (Double.abs (Double.roundPos x)) = true := by
    intro x hx
    rw [lit0001_eq]
    rcases dbl_roundPos_ge_half x hx with hr | ⟨r, hr, hr2⟩
    · rw [hr]; rfl
    · rw [hr]
      simp only [Double.abs, Double.lt, decide_eq_true_eq]
      rw [abs_of_nonneg (by linarith)]
      have : (7378697629483821 : ℚ) / 2 ^ 66 < 1 / 2 := by norm_num
      linarith
  unfold Double.round
  rcases le_or_lt 0 q with h0 | h0
  · rw [abs_of_nonneg h0] at h
    rw [if_neg (by intro e; linarith), if_pos (by linarith)]
    exact hpos q h
  · rw [abs_of_neg h0] at h
    rw [if_neg (ne_of_lt h0), if_neg (not_lt.mpr (le_of_lt h0)), dbl_abs_neg]
    exact hpos (-q) h

theorem dbl_abs_sub_swap (x y : Double) :
    Double.abs (Double.sub y x) = Double.abs (Double.sub x y) := by
  rw [dbl_sub_swap y x, dbl_abs_neg]

/-! ## Auxiliary facts: integers below 2^53 are not rounded -/

theorem dbl_log2Aux_le (fuel n : Nat) (h1 : 1 ≤ n) : 2 ^ Double.log2Aux fuel n ≤ n := by
  induction fuel generalizing n with
  | zero => simpa [Double.log2Aux] using h1
  | succ f ih =>
    unfold Double.log2Aux
    by_cases h : n < 2
    · rw [if_pos h]
      simpa using h1
    · rw [if_neg h]
      have h2 : 1 ≤ n / 2 := by omega
      have := ih (n / 2) h2
      rw [pow_succ]
      omega

theorem dbl_ilog2_le (n : Nat) (h1 : 1 ≤ n) (h : n < 2 ^ 53) : Double.ilog2 n ≤ 52 := by
  have h2 : 2 ^ Double.ilog2 n ≤ n := dbl_log2Aux_le n n h1
  have h3 : 2 ^ Double.ilog2 n < 2 ^ 53 := lt_of_le_of_lt h2 h
  have h4 := (Nat.pow_lt_pow_iff_right (by norm_num : 1 < 2)).mp h3
  omega

theorem dbl_nearestEven_int (m : Int) : Double.nearestEven (m : ℚ) = m := by
  unfold Double.nearestEven
  rw [Int.floor_intCast]
  rw [if_pos (by norm_num)]

theorem dbl_exponent_nat_le (n : Nat) : Double.exponent (n : ℚ) ≤ Double.ilog2 n := by
  have h1 : Double.ilog2 1 = 0 := rfl
  unfold Double.exponent
  simp only [Rat.num_natCast, Rat.den_natCast, Int.natAbs_ofNat, h1, Nat.cast_zero, sub_zero]
  split_ifs <;> omega

theorem dbl_roundPos_nat (n : Nat) (h1 : 1 ≤ n) (h : n < 2 ^ 53) :
    Double.roundPos (n : ℚ) = Double.fin n := by
  have he : Double.exponent (n : ℚ) ≤ 52 :=
    le_trans (dbl_exponent_nat_le n) (by exact_mod_cast dbl_ilog2_le n h1 h)
  obtain ⟨k, hk⟩ : ∃ k : Nat, Double.exponent (n : ℚ) - 52 = -(k : Int) :=
    ⟨(52 - Double.exponent (n : ℚ)).toNat, by omega⟩
  have hq : (n : ℚ) / 2 ^ (-(k : Int)) = ((n * 2 ^ k : Nat) : Int) := by
    rw [zpow_neg, zpow_natCast, div_inv_eq_mul]
    push_cast
    ring
  have hv : (((n * 2 ^ k : Nat) : Int) : ℚ) * 2 ^ (-(k : Int)) = n := by
    rw [zpow_neg, zpow_natCast]
    push_cast
    field_simp
  unfold Double.roundPos
  rw [hk, hq, dbl_nearestEven_int, hv]
  have hlt : ¬ ((2 : ℚ) ^ (1024 : Int) ≤ n) := by
    have h53 : (n : ℚ) < 2 ^ 53 := by exact_mod_cast h
    have : (2 : ℚ) ^ 53 ≤ 2 ^ (1024 : Int) := by
      rw [show ((1024 : Int)) = ((1024 : Nat) : Int) from rfl, zpow_natCast]
      exact pow_le_pow_right₀ (by norm_num) (by norm_num)
    intro hc
    linarith
  rw [if_neg hlt]

theorem dbl_round_int (z : Int) (h : |z| < 2 ^ 53) : Double.round (z : ℚ) = Double.fin z := by
  unfold Double.round
  rcases lt_trichotomy z 0 with hz | hz | hz
  · have hq : (z : ℚ) < 0 := by exact_mod_cast hz
    rw [if_neg (ne_of_lt hq), if_neg (not_lt.mpr (le_of_lt hq))]
    have hn : (-(z : ℚ)) = ((-z).toNat : ℚ) := by
      have : ((-z).toNat : Int) = -z := Int.toNat_of_nonneg (by omega)
      have h2 : (((-z).toNat : Int) : ℚ) = ((-z : Int) : ℚ) := by rw [this]
      push_cast at h2
      rw [← h2]
    rw [hn, dbl_roundPos_nat _ (by omega) (by rw [abs_of_neg hz] at h; omega), ← hn]
    simp [Double.neg]
  · rw [hz]; simp
  · have hq : (0 : ℚ) < z := by exact_mod_cast hz
    rw [if_neg (ne_of_gt hq), if_pos hq]
    have hn : (z : ℚ) = (z.toNat : ℚ) := by
      have : (z.toNat : Int) = z := Int.toNat_of_nonneg (by omega)
      have h2 : ((z.toNat : Int) : ℚ) = (z : ℚ) := by rw [this]
      push_cast at h2
      rw [← h2]
    rw [hn, dbl_roundPos_nat _ (by omega) (by rw [abs_of_pos hz] at h; omega)]

theorem dbl_mul_int (x y : Int) (h : |x * y| < 2 ^ 53) :
    Double.mul (Double.fin x) (Double.fin y) = Double.fin ((x * y : Int) : ℚ) := by
  show Double.round ((x : ℚ) * y) = _
  rw [← dbl_round_int (x * y) h]
  push_cast
  rfl

theorem dbl_sub_int (x y : Int) (h : |x - y| < 2 ^ 53) :
    Double.sub (Double.fin x) (Double.fin y) = Double.fin ((x - y : Int) : ℚ) := by
  show Double.round ((x : ℚ) + -y) = _
  rw [← dbl_round_int (x - y) h]
  push_cast
  congr 1
  ring

theorem dbl_add_int (x y : Int) (h : |x + y| < 2 ^ 53) :
    Double.add (Double.fin x) (Double.fin y) = Double.fin ((x + y : Int) : ℚ) := by
  show Double.round ((x : ℚ) + y) = _
  rw [← dbl_round_int (x + y) h]
  push_cast
  rfl

theorem int_abs_mul_le (x y M N : Int) (hx : |x| ≤ M) (hy : |y| ≤ N) : |x * y| ≤ M * N := by
  rw [abs_mul]
  exact mul_le_mul hx hy (abs_nonneg _) (le_trans (abs_nonneg _) hx)

theorem int_abs_sub_le (x y M N : Int) (hx : |x| ≤ M) (hy : |y| ≤ N) : |x - y| ≤ M + N := by
  have h := abs_sub x y
  linarith

theorem int_abs_add_le (x y M N : Int) (hx : |x| ≤ M) (hy : |y| ≤ N) : |x + y| ≤ M + N := by
  have h := abs_add x y
  linarith

theorem dbl_det_int (x y u v : Int) (hx : |x| ≤ 4096) (hy : |y| ≤ 4096) (hu : |u| ≤ 4096)
    (hv : |v| ≤ 4096) :
    Double.sub (Double.mul (Double.fin x) (Double.fin y)) (Double.mul (Double.fin u) (Double.fin v))
      = Double.fin ((x * y - u * v : Int) : ℚ) := by
  have h1 := int_abs_mul_le x y _ _ hx hy
  have h2 := int_abs_mul_le u v _ _ hu hv
  have h3 := int_abs_sub_le (x * y) (u * v) _ _ h1 h2
  rw [dbl_mul_int x y (by linarith), dbl_mul_int u v (by linarith),
    dbl_sub_int (x * y) (u * v) (by linarith)]

theorem cross_int (a0 a1 a2 b0 b1 b2 : Int)
    (ha : |a0| ≤ 4096 ∧ |a1| ≤ 4096 ∧ |a2| ≤ 4096)
    (hb : |b0| ≤ 4096 ∧ |b1| ≤ 4096 ∧ |b2| ≤ 4096) :
    cross [Double.fin a0, Double.fin a1, Double.fin a2]
        [Double.fin b0, Double.fin b1, Double.fin b2]
      = [Double.fin ((a1 * b2 - a2 * b1 : Int) : ℚ), Double.fin ((a2 * b0 - a0 * b2 : Int) : ℚ),
          Double.fin ((a0 * b1 - a1 * b0 : Int) : ℚ)] := by
  have hc : cross [Double.fin a0, Double.fin a1, Double.fin a2]
        [Double.fin b0, Double.fin b1, Double.fin b2]
      = [Double.sub (Double.mul (Double.fin a1) (Double.fin b2))
            (Double.mul (Double.fin a2) (Double.fin b1)),
          Double.sub (Double.mul (Double.fin a2) (Double.fin b0))
            (Double.mul (Double.fin a0) (Double.fin b2)),
          Double.sub (Double.mul (Double.fin a0) (Double.fin b1))
            (Double.mul (Double.fin a1) (Double.fin b0))] := by
    simp [cross, cshift, vmul, vsub]
  rw [hc, dbl_det_int a1 b2 a2 b1 ha.2.1 hb.2.2 ha.2.2 hb.2.1,
    dbl_det_int a2 b0 a0 b2 ha.2.2 hb.1 ha.1 hb.2.2,
    dbl_det_int a0 b1 a1 b0 ha.1 hb.2.1 ha.2.1 hb.1]

theorem vsum_vmul_int (x0 x1 x2 y0 y1 y2 : Int)
    (hx : |x0| ≤ 2 ^ 25 ∧ |x1| ≤ 2 ^ 25 ∧ |x2| ≤ 2 ^ 25)
    (hy : |y0| ≤ 4096 ∧ |y1| ≤ 4096 ∧ |y2| ≤ 4096) :
    vsum (vmul [Double.fin x0, Double.fin x1, Double.fin x2]
        [Double.fin y0, Double.fin y1, Double.fin y2])
      = Double.fin ((x2 * y2 + x1 * y1 + x0 * y0 : Int) : ℚ) := by
  have h0 := int_abs_mul_le x0 y0 _ _ hx.1 hy.1
  have h1 := int_abs_mul_le x1 y1 _ _ hx.2.1 hy.2.1
  have h2 := int_abs_mul_le x2 y2 _ _ hx.2.2 hy.2.2
  have h21 := int_abs_add_le (x2 * y2) (x1 * y1) _ _ h2 h1
  have h210 := int_abs_add_le (x2 * y2 + x1 * y1) (x0 * y0) _ _ h21 h0
  have hv : vsum (vmul [Double.fin x0, Double.fin x1, Double.fin x2]
        [Double.fin y0, Double.fin y1, Double.fin y2])
      = Double.add (Double.add (Double.mul (Double.fin x2) (Double.fin y2))
          (Double.mul (Double.fin x1) (Double.fin y1)))
          (Double.mul (Double.fin x0) (Double.fin y0)) := by
    simp [vsum, vmul]
  rw [hv, dbl_mul_int x0 y0 (by linarith), dbl_mul_int x1 y1 (by linarith),
    dbl_mul_int x2 y2 (by linarith), dbl_add_int (x2 * y2) (x1 * y1) (by linarith),
    dbl_add_int (x2 * y2 + x1 * y1) (x0 * y0) (by linarith)]

/-- The cross product of two vectors with integer components of size at most 4096 is computed
without rounding and is orthogonal to both of them. -/
theorem cross_orthogonal_int (a0 a1 a2 b0 b1 b2 : Int)
    (ha : |a0| ≤ 4096 ∧ |a1| ≤ 4096 ∧ |a2| ≤ 4096)
    (hb : |b0| ≤ 4096 ∧ |b1| ≤ 4096 ∧ |b2| ≤ 4096) :
    vsum (vmul (cross [Double.fin a0, Double.fin a1, Double.fin a2]
          [Double.fin b0, Double.fin b1, Double.fin b2])
        [Double.fin a0, Double.fin a1, Double.fin a2]) = 0 ∧
      vsum (vmul (cross [Double.fin a0, Double.fin a1, Double.fin a2]
          [Double.fin b0, Double.fin b1, Double.fin b2])
        [Double.fin b0, Double.fin b1, Double.fin b2]) = 0 := by
  have hd : ∀ x y u v : Int, |x| ≤ 4096 → |y| ≤ 4096 → |u| ≤ 4096 → |v| ≤ 4096 →
      |x * y - u * v| ≤ 2 ^ 25 := by
    intro x y u v hx hy hu hv
    have h1 := int_abs_mul_le x y _ _ hx hy
    have h2 := int_abs_mul_le u v _ _ hu hv
    have h3 := int_abs_sub_le (x * y) (u * v) _ _ h1 h2
    linarith
  have hc : |a1 * b2 - a2 * b1| ≤ 2 ^ 25 ∧ |a2 * b0 - a0 * b2| ≤ 2 ^ 25
      ∧ |a0 * b1 - a1 * b0| ≤ 2 ^ 25 :=
    ⟨hd _ _ _ _ ha.2.1 hb.2.2 ha.2.2 hb.2.1, hd _ _ _ _ ha.2.2 hb.1 ha.1 hb.2.2,
      hd _ _ _ _ ha.1 hb.2.1 ha.2.1 hb.1⟩
  rw [cross_int a0 a1 a2 b0 b1 b2 ha hb, vsum_vmul_int _ _ _ _ _ _ hc ha,
    vsum_vmul_int _ _ _ _ _ _ hc hb]
  constructor
  · have : (a0 * b1 - a1 * b0) * a2 + (a2 * b0 - a0 * b2) * a1 + (a1 * b2 - a2 * b1) * a0
        = 0 := by ring
    rw [this]
    rfl
  · have : (a0 * b1 - a1 * b0) * b2 + (a2 * b0 - a0 * b2) * b1 + (a1 * b2 - a2 * b1) * b0
        = 0 := by ring
    rw [this]
    rfl

/-! ## Auxiliary facts: the set model, the scan and the series ordering -/

theorem setEmplace_single {α : Type} (less : α → α → Bool) (a b : α) :
    setEmplace less [a] b = if less b a then [b, a] else if less a b then [a, b] else [a] := by
  simp only [setEmplace]

theorem SeriesInfo.fill_slices (p : Parsers) (this : SeriesInfo) (d1 d2 : DcmItem) :
    (SeriesInfo.fill p this d1 d2).2.slices = this.slices := by
  unfold SeriesInfo.fill
  dsimp only
  split <;> rfl

theorem DcmFile.series_slices (p : Parsers) (f : DcmFile) : (f.series p).slices = [] :=
  SeriesInfo.fill_slices p {} f.dataset f.metaInfo

theorem SeriesSet.step_eq (p : Parsers) (set : SeriesSet) (f : DcmFile) :
    SeriesSet.step p set f =
      if f.usable p = true then SeriesSet.add set (f.slice p) (f.series p) else set := by
  unfold SeriesSet.step DcmFile.usable DcmFile.slice DcmFile.series
  dsimp only
  cases h1 : (SliceInfo.fill p {} f.dataset (some f.metaInfo)).1 <;>
    cases h2 : (SeriesInfo.fill p {} f.dataset f.metaInfo).1 <;> simp

theorem SeriesInfo.lt_eq_false (a b : SeriesInfo)
    (hstudy : a.StudyInstanceUID = b.StudyInstanceUID)
    (hseries : a.SeriesInstanceUID = b.SeriesInstanceUID)
    (hpat : a.PatientID = b.PatientID ∨ a.IssuerOfPatientID = b.IssuerOfPatientID) :
    a.lt b = false := by
  unfold SeriesInfo.lt
  have h : ¬ (a.PatientID ≠ b.PatientID ∧ a.IssuerOfPatientID ≠ b.IssuerOfPatientID) := by
    rintro ⟨h1, h2⟩
    rcases hpat with h | h
    · exact h1 h
    · exact h2 h
  rw [if_neg h, if_neg (not_not.mpr hstudy), if_neg (not_not.mpr hseries)]

theorem SeriesSet.add_nil (sl : SliceInfo) (sr : SeriesInfo) (h : sr.slices = []) :
    SeriesSet.add [] sl sr = [sr.withSlices [sl]] := by
  simp [SeriesSet.add, setFind, setEmplace, setEmplaceHint, h]

theorem SeriesSet.add_match (s1 sr : SeriesInfo) (sl : SliceInfo) (h : sr.slices = [])
    (h12 : SeriesInfo.lt s1 (sr.withSlices [sl]) = false)
    (h21 : SeriesInfo.lt (sr.withSlices [sl]) s1 = false) :
    SeriesSet.add [s1] sl sr = [s1.withSlices (setEmplace SliceInfo.lt s1.slices sl)] := by
  simp [SeriesSet.add, setFind, setEmplace, modifyAt, h, h12, h21]

theorem SeriesSet.scan_pair (p : Parsers) (f1 f2 : DcmFile)
    (hu1 : f1.usable p = true) (hu2 : f2.usable p = true) :
    SeriesSet.scanDirectory p [] [f1, f2] =
      SeriesSet.add [(f1.series p).withSlices [f1.slice p]] (f2.slice p) (f2.series p) := by
  simp [SeriesSet.scanDirectory, SeriesSet.step_eq, hu1, hu2,
    SeriesSet.add_nil _ _ (DcmFile.series_slices p f1)]

theorem SeriesSet.scan_pair_match (p : Parsers) (f1 f2 : DcmFile)
    (hu1 : f1.usable p = true) (hu2 : f2.usable p = true)
    (hstudy : (f1.series p).StudyInstanceUID = (f2.series p).StudyInstanceUID)
    (hseries : (f1.series p).SeriesInstanceUID = (f2.series p).SeriesInstanceUID)
    (hpat : (f1.series p).PatientID = (f2.series p).PatientID ∨
      (f1.series p).IssuerOfPatientID = (f2.series p).IssuerOfPatientID) :
    SeriesSet.scanDirectory p [] [f1, f2] =
      [(f1.series p).withSlices (setEmplace SliceInfo.lt [f1.slice p] (f2.slice p))] := by
  have h12 : SeriesInfo.lt ((f1.series p).withSlices [f1.slice p])
      ((f2.series p).withSlices [f2.slice p]) = false :=
    SeriesInfo.lt_eq_false _ _ hstudy hseries hpat
  have h21 : SeriesInfo.lt ((f2.series p).withSlices [f2.slice p])
      ((f1.series p).withSlices [f1.slice p]) = false :=
    SeriesInfo.lt_eq_false _ _ hstudy.symm hseries.symm (hpat.imp Eq.symm Eq.symm)
  rw [SeriesSet.scan_pair p f1 f2 hu1 hu2,
    SeriesSet.add_match _ _ _ (DcmFile.series_slices p f2) h12 h21]
  rfl

theorem SeriesSet.step_skip (p : Parsers) (set : SeriesSet) (f : DcmFile)
    (h : (stringTag DCM_SOPInstanceUID f.dataset (some f.metaInfo) false = [] ∧
          stringTag DCM_ReferencedSOPInstanceUIDInFile f.dataset (some f.metaInfo) false = [] ∧
          stringTag DCM_MediaStorageSOPInstanceUID f.dataset (some f.metaInfo) false = []) ∨
        (stringTag DCM_SeriesInstanceUID f.dataset (some f.metaInfo) false = [] ∧
          stringTag DCM_StudyInstanceUID f.dataset (some f.metaInfo) false = [])) :
    SeriesSet.step p set f = set := by
  rw [SeriesSet.step_eq]
  have hu : f.usable p = false := by
    rcases h with ⟨h1, h2, h3⟩ | ⟨h1, h2⟩
    · have : (SliceInfo.fill p {} f.dataset (some f.metaInfo)).1 = false := by
        simp [SliceInfo.fill, resolveSOPInstanceUID, h1, h2, h3]
      simp [DcmFile.usable, this]
    · have : (SeriesInfo.fill p {} f.dataset f.metaInfo).1 = false := by
        simp [SeriesInfo.fill, h1, h2]
      simp [DcmFile.usable, this]
  simp [hu]

theorem wideFile1_slice : wideFile1.slice digitParsers = wideA := by
  decide!

theorem wideFile2_slice : wideFile2.slice digitParsers = wideB := by
  decide!

theorem SeriesSet.scan_all_skipped (p : Parsers) (files : List DcmFile)
    (h : ∀ f ∈ files, ∀ set : SeriesSet, SeriesSet.step p set f = set) (set : SeriesSet) :
    SeriesSet.scanDirectory p set files = set := by
  induction files generalizing set with
  | nil => rfl
  | cons f fs ih =>
    have hf := h f (List.mem_cons_self f fs) set
    have hfs := ih (fun g hg => h g (List.mem_cons_of_mem f hg)) set
    simp only [SeriesSet.scanDirectory, List.foldl_cons] at hfs ⊢
    rw [hf]
    exact hfs

theorem int_lt_total (m n : Int) (h : m ≠ n) : decide (m < n) = true ∨ decide (n < m) = true := by
  rcases lt_or_gt_of_ne h with h1 | h1
  · left; simpa using h1
  · right; simpa using h1

theorem SeriesInfo.ltSeriesKeys_total (a b : SeriesInfo)
    (h : a.SeriesInstanceUID ≠ b.SeriesInstanceUID) :
    a.ltSeriesKeys b = true ∨ b.ltSeriesKeys a = true := by
  unfold SeriesInfo.ltSeriesKeys
  by_cases h1 : a.SeriesNumber = b.SeriesNumber
  · rw [if_neg (not_not.mpr h1), if_neg (not_not.mpr h1.symm)]
    by_cases h2 : a.SeriesTime = b.SeriesTime
    · rw [if_neg (not_not.mpr h2), if_neg (not_not.mpr h2.symm)]
      by_cases h3 : a.Modality = b.Modality
      · rw [if_neg (not_not.mpr h3), if_neg (not_not.mpr h3.symm)]
        by_cases h4 : a.SOPClassUID = b.SOPClassUID
        · rw [if_neg (not_not.mpr h4), if_neg (not_not.mpr h4.symm)]
          exact strLt_total _ _ h
        · rw [if_pos h4, if_pos (Ne.symm h4)]
          exact strLt_total _ _ h4
      · rw [if_pos h3, if_pos (Ne.symm h3)]
        exact strLt_total _ _ h3
    · rw [if_pos h2, if_pos (Ne.symm h2)]
      exact strLt_total _ _ h2
  · rw [if_pos h1, if_pos (Ne.symm h1)]
    exact int_lt_total _ _ h1

theorem SeriesInfo.ltSeries_single (a b : SeriesInfo) (x y : SliceInfo)
    (ha : a.slices = [x]) (hb : b.slices = [y]) :
    a.ltSeries b =
      if ((!x.HasImagePositionPatient && !x.Laterality.isEmpty)
          || (!y.HasImagePositionPatient && !y.Laterality.isEmpty)) = true then
        if x.ViewPosition ≠ y.ViewPosition then strLt x.ViewPosition y.ViewPosition
        else if x.Laterality ≠ y.Laterality then strLt y.Laterality x.Laterality
        else a.ltSeriesKeys b
      else a.ltSeriesKeys b := by
  unfold SeriesInfo.ltSeries
  rw [ha, hb]

theorem SeriesInfo.ltSeries_other (a b : SeriesInfo)
    (h : ¬ ∃ x y, a.slices = [x] ∧ b.slices = [y]) : a.ltSeries b = a.ltSeriesKeys b := by
  unfold SeriesInfo.ltSeries
  split
  · rename_i x y hx hy
    exact absurd ⟨x, y, hx, hy⟩ h
  · rfl

theorem SeriesInfo.ltSeries_total (a b : SeriesInfo)
    (h : a.SeriesInstanceUID ≠ b.SeriesInstanceUID) :
    a.ltSeries b = true ∨ b.ltSeries a = true := by
  by_cases hs : ∃ x y, a.slices = [x] ∧ b.slices = [y]
  · obtain ⟨x, y, hx, hy⟩ := hs
    rw [SeriesInfo.ltSeries_single a b x y hx hy, SeriesInfo.ltSeries_single b a y x hy hx,
      Bool.or_comm (!y.HasImagePositionPatient && !y.Laterality.isEmpty)]
    split
    · by_cases hvp : x.ViewPosition = y.ViewPosition
      · rw [if_neg (not_not.mpr hvp), if_neg (not_not.mpr hvp.symm)]
        by_cases hlat : x.Laterality = y.Laterality
        · rw [if_neg (not_not.mpr hlat), if_neg (not_not.mpr hlat.symm)]
          exact SeriesInfo.ltSeriesKeys_total a b h
        · rw [if_pos hlat, if_pos (Ne.symm hlat)]
          exact (strLt_total _ _ hlat).symm
      · rw [if_pos hvp, if_pos (Ne.symm hvp)]
        exact strLt_total _ _ hvp
    · exact SeriesInfo.ltSeriesKeys_total a b h
  · have hs' : ¬ ∃ y x, b.slices = [y] ∧ a.slices = [x] := by
      rintro ⟨y, x, hy, hx⟩
      exact hs ⟨x, y, hx, hy⟩
    rw [SeriesInfo.ltSeries_other a b hs, SeriesInfo.ltSeries_other b a hs']
    exact SeriesInfo.ltSeriesKeys_total a b h

theorem SeriesInfo.lt_total (a b : SeriesInfo)
    (h : ¬ (a.StudyInstanceUID = b.StudyInstanceUID ∧
      a.SeriesInstanceUID = b.SeriesInstanceUID ∧
      ¬ (a.PatientID ≠ b.PatientID ∧ a.IssuerOfPatientID ≠ b.IssuerOfPatientID))) :
    a.lt b = true ∨ b.lt a = true := by
  unfold SeriesInfo.lt
  by_cases hp : a.PatientID ≠ b.PatientID ∧ a.IssuerOfPatientID ≠ b.IssuerOfPatientID
  · have hp' : b.PatientID ≠ a.PatientID ∧ b.IssuerOfPatientID ≠ a.IssuerOfPatientID :=
      ⟨Ne.symm hp.1, Ne.symm hp.2⟩
    rw [if_pos hp, if_pos hp']
    by_cases h1 : a.PatientName = b.PatientName
    · rw [if_neg (not_not.mpr h1), if_neg (not_not.mpr h1.symm)]
      by_cases h2 : a.PatientBirthDate = b.PatientBirthDate
      · rw [if_neg (not_not.mpr h2), if_neg (not_not.mpr h2.symm), if_pos hp.2, if_pos hp'.2]
        exact strLt_total _ _ hp.2
      · rw [if_pos h2, if_pos (Ne.symm h2)]
        exact strLt_total _ _ h2
    · rw [if_pos h1, if_pos (Ne.symm h1)]
      exact strLt_total _ _ h1
  · have hp' : ¬ (b.PatientID ≠ a.PatientID ∧ b.IssuerOfPatientID ≠ a.IssuerOfPatientID) :=
      fun hq => hp ⟨Ne.symm hq.1, Ne.symm hq.2⟩
    rw [if_neg hp, if_neg hp']
    by_cases hst : a.StudyInstanceUID = b.StudyInstanceUID
    · rw [if_neg (not_not.mpr hst), if_neg (not_not.mpr hst.symm)]
      have hse : a.SeriesInstanceUID ≠ b.SeriesInstanceUID := fun e => h ⟨hst, e, hp⟩
      rw [if_pos hse, if_pos (Ne.symm hse)]
      exact SeriesInfo.ltSeries_total a b hse
    · rw [if_pos hst, if_pos (Ne.symm hst)]
      by_cases h1 : a.StudyDate = b.StudyDate
      · rw [if_neg (not_not.mpr h1), if_neg (not_not.mpr h1.symm)]
        by_cases h2 : a.StudyID = b.StudyID
        · rw [if_neg (not_not.mpr h2), if_neg (not_not.mpr h2.symm)]
          exact strLt_total _ _ hst
        · rw [if_pos h2, if_pos (Ne.symm h2)]
          exact strLt_total _ _ h2
      · rw [if_pos h1, if_pos (Ne.symm h1)]
        exact strLt_total _ _ h1

/-! ## Auxiliary facts: scanning the files of one series -/

theorem setEmplace_subset {α : Type} (less : α → α → Bool) (l : List α) (k y : α)
    (h : y ∈ l) : y ∈ setEmplace less l k := by
  induction l with
  | nil => cases h
  | cons z zs ih =>
    unfold setEmplace
    by_cases h1 : less k z = true
    · rw [if_pos h1]
      exact List.mem_cons_of_mem _ h
    · rw [if_neg h1]
      by_cases h2 : less z k = true
      · rw [if_pos h2]
        rcases List.mem_cons.mp h with e | e
        · rw [e]; exact List.mem_cons_self _ _
        · exact List.mem_cons_of_mem _ (ih e)
      · rw [if_neg h2]
        exact h

theorem setEmplace_mem {α : Type} (less : α → α → Bool) (l : List α) (k : α) :
    k ∈ setEmplace less l k ∨
      ∃ y ∈ setEmplace less l k, less k y = false ∧ less y k = false := by
  induction l with
  | nil => exact Or.inl (List.mem_singleton.mpr rfl)
  | cons z zs ih =>
    unfold setEmplace
    by_cases h1 : less k z = true
    · rw [if_pos h1]
      exact Or.inl (List.mem_cons_self _ _)
    · rw [if_neg h1]
      by_cases h2 : less z k = true
      · rw [if_pos h2]
        rcases ih with e | ⟨y, hy, hk⟩
        · exact Or.inl (List.mem_cons_of_mem _ e)
        · exact Or.inr ⟨y, List.mem_cons_of_mem _ hy, hk⟩
      · rw [if_neg h2]
        exact Or.inr ⟨z, List.mem_cons_self _ _, by simpa using h1, by simpa using h2⟩

theorem setEmplace_from {α : Type} (less : α → α → Bool) (l : List α) (k y : α)
    (h : y ∈ setEmplace less l k) : y = k ∨ y ∈ l := by
  induction l with
  | nil => exact Or.inl (List.mem_singleton.mp h)
  | cons z zs ih =>
    unfold setEmplace at h
    by_cases h1 : less k z = true
    · rw [if_pos h1] at h
      rcases List.mem_cons.mp h with e | e
      · exact Or.inl e
      · exact Or.inr e
    · rw [if_neg h1] at h
      by_cases h2 : less z k = true
      · rw [if_pos h2] at h
        rcases List.mem_cons.mp h with e | e
        · exact Or.inr (e ▸ List.mem_cons_self _ _)
        · rcases ih e with e1 | e1
          · exact Or.inl e1
          · exact Or.inr (List.mem_cons_of_mem _ e1)
      · rw [if_neg h2] at h
        exact Or.inr h

/-- Files that carry the study, series and patient identifiers of the stored series are
added to it, one slice after the other, and no second series is created. -/
theorem SeriesSet.scan_one_series (p : Parsers) (f : DcmFile) (fs : List DcmFile)
    (l0 : List SliceInfo)
    (hu : ∀ g ∈ fs, g.usable p = true)
    (hsame : ∀ g ∈ fs,
      (g.series p).SeriesInstanceUID = (f.series p).SeriesInstanceUID ∧
        (g.series p).StudyInstanceUID = (f.series p).StudyInstanceUID ∧
        (g.series p).PatientID = (f.series p).PatientID ∧
        (g.series p).IssuerOfPatientID = (f.series p).IssuerOfPatientID) :
    ∃ l, SeriesSet.scanDirectory p [(f.series p).withSlices l0] fs
          = [(f.series p).withSlices l] ∧
      (∀ y ∈ l0, y ∈ l) ∧
      (∀ g ∈ fs, g.slice p ∈ l ∨
        ∃ y ∈ l, (g.slice p).lt y = false ∧ y.lt (g.slice p) = false) ∧
      (∀ y ∈ l, y ∈ l0 ∨ ∃ g ∈ fs, y = g.slice p) := by
  induction fs generalizing l0 with
  | nil =>
    exact ⟨l0, rfl, fun y hy => hy, fun g hg => absurd hg (List.not_mem_nil g),
      fun y hy => Or.inl hy⟩
  | cons g gs ih =>
    have hg := hsame g (List.mem_cons_self g gs)
    have h12 : SeriesInfo.lt ((f.series p).withSlices l0)
        ((g.series p).withSlices [g.slice p]) = false :=
      SeriesInfo.lt_eq_false _ _ hg.2.1.symm hg.1.symm (Or.inl hg.2.2.1.symm)
    have h21 : SeriesInfo.lt ((g.series p).withSlices [g.slice p])
        ((f.series p).withSlices l0) = false :=
      SeriesInfo.lt_eq_false _ _ hg.2.1 hg.1 (Or.inl hg.2.2.1)
    have hstep : SeriesSet.step p [(f.series p).withSlices l0] g
        = [(f.series p).withSlices (setEmplace SliceInfo.lt l0 (g.slice p))] := by
      rw [SeriesSet.step_eq, if_pos (hu g (List.mem_cons_self g gs)),
        SeriesSet.add_match _ _ _ (DcmFile.series_slices p g) h12 h21]
      rfl
    obtain ⟨l, hl, hsub, hmem, hfrom⟩ := ih (setEmplace SliceInfo.lt l0 (g.slice p))
      (fun k hk => hu k (List.mem_cons_of_mem g hk))
      (fun k hk => hsame k (List.mem_cons_of_mem g hk))
    refine ⟨l, ?_, ?_, ?_, ?_⟩
    · show SeriesSet.scanDirectory p (SeriesSet.step p [(f.series p).withSlices l0] g) gs = _
      rw [hstep]
      exact hl
    · intro y hy
      exact hsub y (setEmplace_subset SliceInfo.lt l0 (g.slice p) y hy)
    · intro k hk
      rcases List.mem_cons.mp hk with e | e
      · rw [e]
        rcases setEmplace_mem SliceInfo.lt l0 (g.slice p) with h | ⟨y, hy, hyk⟩
        · exact Or.inl (hsub _ h)
        · exact Or.inr ⟨y, hsub y hy, hyk⟩
      · exact hmem k e
    · intro y hy
      rcases hfrom y hy with h | ⟨k, hk, hyk⟩
      · rcases setEmplace_from SliceInfo.lt l0 (g.slice p) y h with e | e
        · exact Or.inr ⟨g, List.mem_cons_self g gs, e⟩
        · exact Or.inl e
      · exact Or.inr ⟨k, List.mem_cons_of_mem g hk, hyk⟩

/-- The scan of the files of one series into the empty set. -/
theorem SeriesSet.scan_single_series (p : Parsers) (f : DcmFile) (fs : List DcmFile)
    (hu : ∀ g ∈ f :: fs, g.usable p = true)
    (hsame : ∀ g ∈ fs,
      (g.series p).SeriesInstanceUID = (f.series p).SeriesInstanceUID ∧
        (g.series p).StudyInstanceUID = (f.series p).StudyInstanceUID ∧
        (g.series p).PatientID = (f.series p).PatientID ∧
        (g.series p).IssuerOfPatientID = (f.series p).IssuerOfPatientID) :
    ∃ l, SeriesSet.scanDirectory p [] (f :: fs) = [(f.series p).withSlices l] ∧
      f.slice p ∈ l ∧
      (∀ g ∈ fs, g.slice p ∈ l ∨
        ∃ y ∈ l, (g.slice p).lt y = false ∧ y.lt (g.slice p) = false) ∧
      (∀ y ∈ l, ∃ g ∈ f :: fs, y = g.slice p) := by
  have hstep : SeriesSet.step p [] f = [(f.series p).withSlices [f.slice p]] := by
    rw [SeriesSet.step_eq, if_pos (hu f (List.mem_cons_self f fs)),
      SeriesSet.add_nil _ _ (DcmFile.series_slices p f)]
  obtain ⟨l, hl, hsub, hmem, hfrom⟩ := SeriesSet.scan_one_series p f fs [f.slice p]
    (fun g hg => hu g (List.mem_cons_of_mem f hg)) hsame
  refine ⟨l, ?_, hsub _ (List.mem_singleton.mpr rfl), hmem, ?_⟩
  · show SeriesSet.scanDirectory p (SeriesSet.step p [] f) fs = _
    rw [hstep]
    exact hl
  · intro y hy
    rcases hfrom y hy with h | ⟨g, hg, e⟩
    · exact ⟨f, List.mem_cons_self f fs, List.mem_singleton.mp h⟩
    · exact ⟨g, List.mem_cons_of_mem f hg, e⟩

/-- Two files whose series descriptors the series ordering tells apart are put into two
series, each holding its own slice. -/
theorem SeriesSet.scan_pair_apart (p : Parsers) (f1 f2 : DcmFile)
    (hu1 : f1.usable p = true) (hu2 : f2.usable p = true)
    (h : ¬ ((f1.series p).StudyInstanceUID = (f2.series p).StudyInstanceUID ∧
      (f1.series p).SeriesInstanceUID = (f2.series p).SeriesInstanceUID ∧
      ¬ ((f1.series p).PatientID ≠ (f2.series p).PatientID ∧
        (f1.series p).IssuerOfPatientID ≠ (f2.series p).IssuerOfPatientID))) :
    SeriesSet.scanDirectory p [] [f1, f2]
        = [(f1.series p).withSlices [f1.slice p], (f2.series p).withSlices [f2.slice p]] ∨
      SeriesSet.scanDirectory p [] [f1, f2]
        = [(f2.series p).withSlices [f2.slice p], (f1.series p).withSlices [f1.slice p]] := by
  rw [SeriesSet.scan_pair p f1 f2 hu1 hu2]
  have ht := SeriesInfo.lt_total ((f1.series p).withSlices [f1.slice p])
    ((f2.series p).withSlices [f2.slice p]) h
  unfold SeriesSet.add
  rw [DcmFile.series_slices p f2]
  have he : setEmplace SliceInfo.lt [] (f2.slice p) = [f2.slice p] := rfl
  rw [he]
  dsimp only
  by_cases h12 : SeriesInfo.lt ((f1.series p).withSlices [f1.slice p])
      ((f2.series p).withSlices [f2.slice p]) = true
  · left
    simp [setFind, setEmplaceHint, h12]
  · have h21 := ht.resolve_left h12
    right
    simp [setFind, setEmplaceHint, setEmplace, h12, h21]

/-! ## The slice ordering -/

/-- C3: `SliceInfo::operator<` is irreflexive: `a < a` is false for every slice descriptor,
the default constructed one (every optional field absent) included. -/
theorem SliceInfo.lt_irrefl :
    (∀ a : SliceInfo, SliceInfo.lt a a = false) ∧
      SliceInfo.lt ({} : SliceInfo) ({} : SliceInfo) = false :=
  ⟨SliceInfo.lt_self, SliceInfo.lt_self _⟩

/-- C1: `SliceInfo::operator<` is not transitive on `chainA`, `chainB`, `chainC`: the
slice locations of neighbours differ by less than the tolerance 1e-4, so the acquisition
numbers give `chainA < chainB` and `chainB < chainC`, while the slice locations of `chainA`
and `chainC` differ by more than the tolerance and give `chainC < chainA`. -/
theorem SliceInfo.lt_chain_not_transitive :
    chainA.lt chainB = true ∧ chainB.lt chainC = true ∧ chainA.lt chainC = false ∧
      chainC.lt chainA = true := by
  decide!

/-- C2: `SliceInfo::operator<` holds in both directions on `wideA`, `wideB`: from `wideA` the
pixel spacings are close enough (2 ≤ 0.1 * 32) and the projected distance 2 decides
`wideA < wideB`; from `wideB` they are not (2 > 0.1 * 18), and the slice locations decide
`wideB < wideA`. -/
theorem SliceInfo.lt_wide_both_directions :
    wideA.lt wideB = true ∧ wideB.lt wideA = true :=
  ⟨wideA_lt_wideB, wideB_lt_wideA⟩

/-! ## The slice ordering, tier by tier -/

/-- C11: when exactly one of two slices has both position and orientation, presence alone
decides: the slice lacking position or orientation is less than the slice having both, and
not conversely, whatever the other fields are. -/
theorem SliceInfo.lt_presence (a b : SliceInfo)
    (ha : (a.HasImagePositionPatient && a.HasOrientation) = false)
    (hb : (b.HasImagePositionPatient && b.HasOrientation) = true) :
    a.lt b = true ∧ b.lt a = false := by
  have ha1 : a.hasGeometry = false := ha
  have hb1 : b.hasGeometry = true := hb
  constructor <;> simp [SliceInfo.lt, ha1, hb1]

/-- C11 on `chainA` (no position) and `geomA` (position and orientation). -/
theorem SliceInfo.lt_presence_witness : chainA.lt geomA = true ∧ geomA.lt chainA = false :=
  SliceInfo.lt_presence chainA geomA (by decide) (by decide)

/-- C12: for two slices that both lack position and both have non-empty laterality: if the
view positions differ, `a < b` iff `a.ViewPosition < b.ViewPosition`; if they are equal and
the lateralities differ, `a < b` iff `a.Laterality > b.Laterality`; in both cases `b < a` is
the negation of `a < b`. Slice location and the numbering fields play no part. -/
theorem SliceInfo.lt_paired (a b : SliceInfo)
    (hpa : a.HasImagePositionPatient = false) (hpb : b.HasImagePositionPatient = false)
    (hla : a.Laterality ≠ []) (hlb : b.Laterality ≠ []) :
    (a.ViewPosition ≠ b.ViewPosition →
        (a.lt b = true ↔ strLt a.ViewPosition b.ViewPosition = true) ∧
          b.lt a = !a.lt b) ∧
      (a.ViewPosition = b.ViewPosition → a.Laterality ≠ b.Laterality →
        (a.lt b = true ↔ strLt b.Laterality a.Laterality = true) ∧ b.lt a = !a.lt b) := by
  rw [SliceInfo.lt_of_no_position a b hpa hpb, SliceInfo.lt_of_no_position b a hpb hpa]
  have hca : (!a.HasImagePositionPatient && !b.HasImagePositionPatient
      && !a.Laterality.isEmpty && !b.Laterality.isEmpty) = true := by
    simp [hpa, hpb, hla, hlb]
  have hcb : (!b.HasImagePositionPatient && !a.HasImagePositionPatient
      && !b.Laterality.isEmpty && !a.Laterality.isEmpty) = true := by
    simp [hpa, hpb, hla, hlb]
  unfold SliceInfo.ltPaired
  rw [if_pos hca, if_pos hcb]
  constructor
  · intro hvp
    rw [if_pos hvp, if_pos (Ne.symm hvp)]
    exact ⟨Iff.rfl, strLt_flip _ _ hvp⟩
  · intro hvp hlat
    rw [if_neg (not_not.mpr hvp), if_neg (not_not.mpr hvp.symm), if_pos hlat,
      if_pos (Ne.symm hlat)]
    exact ⟨Iff.rfl, strLt_flip _ _ (Ne.symm hlat)⟩

/-- C12 on the slices CC/R and CC/L: R precedes L and not conversely. -/
theorem SliceInfo.lt_paired_witness : pairedR.lt pairedL = true ∧ pairedL.lt pairedR = false := by
  have h := (SliceInfo.lt_paired pairedR pairedL (by decide) (by decide) (by decide)
    (by decide)).2 (by decide) (by decide)
  have h1 : pairedR.lt pairedL = true := h.1.2 (by decide)
  exact ⟨h1, by rw [h.2, h1]; rfl⟩

/-- C13: for two slices that agree on every attribute except the SOPInstanceUID (agreement on
the presence flags, position, view position, laterality, slice location, acquisition, temporal
and instance number and file name is all that is used), `a < b` iff
`a.SOPInstanceUID < b.SOPInstanceUID`; when the identifiers differ exactly one of `a < b`,
`b < a` holds. -/
theorem SliceInfo.lt_identifier (a b : SliceInfo)
    (hpos : a.HasImagePositionPatient = b.HasImagePositionPatient)
    (hori : a.HasOrientation = b.HasOrientation)
    (hipp : a.ImagePositionPatient = b.ImagePositionPatient)
    (hvp : a.ViewPosition = b.ViewPosition) (hlat : a.Laterality = b.Laterality)
    (hsl : a.SliceLocation = b.SliceLocation)
    (hacq : a.AcquisitionNumber = b.AcquisitionNumber)
    (htemp : a.TemporalPosition = b.TemporalPosition)
    (hinst : a.InstanceNumber = b.InstanceNumber) (hfn : a.FileName = b.FileName) :
    (a.lt b = true ↔ strLt a.SOPInstanceUID b.SOPInstanceUID = true) ∧
      (a.SOPInstanceUID ≠ b.SOPInstanceUID → b.lt a = !a.lt b) := by
  have hg : a.hasGeometry = b.hasGeometry := by simp [SliceInfo.hasGeometry, hpos, hori]
  have hd : (a.dist b).isZeroOrNaN = true := SliceInfo.dist_same_position a b hipp
  have hd1 : (b.dist a).isZeroOrNaN = true := SliceInfo.dist_same_position b a hipp.symm
  have hs : Double.lt lit0001 (Double.abs (Double.sub b.SliceLocation b.SliceLocation)) = false :=
    dbl_not_lit_lt_abs _ (dbl_sub_self _)
  have hab : a.lt b = strLt a.SOPInstanceUID b.SOPInstanceUID := by
    rw [SliceInfo.lt_of_dist_zero a b hg hd, SliceInfo.ltPaired_of_equal a b hvp hlat]
    by_cases hu : a.SOPInstanceUID = b.SOPInstanceUID
    · simp [SliceInfo.ltScalar, hsl, hs, hacq, htemp, hinst, hfn, hu, strLt_irrefl]
    · simp [SliceInfo.ltScalar, hsl, hs, hacq, htemp, hinst, hu]
  have hba : b.SOPInstanceUID ≠ a.SOPInstanceUID →
      b.lt a = strLt b.SOPInstanceUID a.SOPInstanceUID := by
    intro hu
    rw [SliceInfo.lt_of_dist_zero b a hg.symm hd1,
      SliceInfo.ltPaired_of_equal b a hvp.symm hlat.symm]
    simp [SliceInfo.ltScalar, hsl, hs, hacq, htemp, hinst, hu]
  refine ⟨by rw [hab], fun hu => ?_⟩
  rw [hba (Ne.symm hu), hab]
  exact strLt_flip _ _ hu

/-- C13 on `plainA` (identifier "1") and `plainB` (identifier "2"). -/
theorem SliceInfo.lt_identifier_witness : plainA.lt plainB = true ∧ plainB.lt plainA = false := by
  have h := SliceInfo.lt_identifier plainA plainB rfl rfl rfl rfl rfl rfl rfl rfl rfl rfl
  have h1 : plainA.lt plainB = true := h.1.2 (by decide)
  exact ⟨h1, by rw [h.2 (by decide), h1]; rfl⟩

/-- C14: for two slices without position and orientation, with empty laterality and view
position, sentinel slice location and numbers and equal identifier, `a < b` iff the file name
of `a` is byte-wise lexicographically less than that of `b`; when the file names differ
exactly one of `a < b`, `b < a` holds. -/
theorem SliceInfo.lt_file_name (a b : SliceInfo)
    (ha : a.HasImagePositionPatient = false ∧ a.HasOrientation = false ∧ a.Laterality = [] ∧
      a.ViewPosition = [] ∧ a.SliceLocation = DBL_MAX ∧ a.AcquisitionNumber = LONG_MAX ∧
      a.TemporalPosition = LONG_MAX ∧ a.InstanceNumber = LONG_MAX)
    (hb : b.HasImagePositionPatient = false ∧ b.HasOrientation = false ∧ b.Laterality = [] ∧
      b.ViewPosition = [] ∧ b.SliceLocation = DBL_MAX ∧ b.AcquisitionNumber = LONG_MAX ∧
      b.TemporalPosition = LONG_MAX ∧ b.InstanceNumber = LONG_MAX)
    (huid : a.SOPInstanceUID = b.SOPInstanceUID) :
    (a.lt b = true ↔ strLt a.FileName b.FileName = true) ∧
      (a.FileName ≠ b.FileName → b.lt a = !a.lt b) := by
  obtain ⟨ha1, _, ha3, _, ha5, ha6, ha7, ha8⟩ := ha
  obtain ⟨hb1, _, hb3, _, hb5, hb6, hb7, hb8⟩ := hb
  have hs : Double.lt lit0001 (Double.abs (Double.sub DBL_MAX DBL_MAX)) = false :=
    dbl_not_lit_lt_abs _ (dbl_sub_self _)
  have hab : a.lt b = strLt a.FileName b.FileName := by
    rw [SliceInfo.lt_of_no_position a b ha1 hb1, SliceInfo.ltPaired_of_empty a b ha3]
    simp [SliceInfo.ltScalar, ha5, hb5, hs, ha6, hb6, ha7, hb7, ha8, hb8, huid]
  have hba : b.lt a = strLt b.FileName a.FileName := by
    rw [SliceInfo.lt_of_no_position b a hb1 ha1, SliceInfo.ltPaired_of_empty b a hb3]
    simp [SliceInfo.ltScalar, ha5, hb5, hs, ha6, hb6, ha7, hb7, ha8, hb8, huid]
  refine ⟨by rw [hab], fun hfn => ?_⟩
  rw [hba, hab]
  exact strLt_flip _ _ hfn

/-- C14 on `plainA` (file "a") and `plainC` (file "b"), which have nothing but an equal
identifier and their file names. -/
theorem SliceInfo.lt_file_name_witness : plainA.lt plainC = true ∧ plainC.lt plainA = false := by
  have h := SliceInfo.lt_file_name plainA plainC ⟨rfl, rfl, rfl, rfl, rfl, rfl, rfl, rfl⟩
    ⟨rfl, rfl, rfl, rfl, rfl, rfl, rfl, rfl⟩ rfl
  have h1 : plainA.lt plainC = true := h.1.2 (by decide)
  exact ⟨h1, by rw [h.2 (by decide), h1]; rfl⟩

/-! ## The geometric rule -/

/-- C4, as stated, fails at the edge of the tolerance. `edgeA` at (0,0,0) and `edgeB` at
(0,0,z), z the double written `0.00005`, have position and orientation and share tilt,
spacing and axes; their normals are the cross products of the axes; the projection is
p = 2z = 7378697629483821 / 2^66 > 1/10000 in exact arithmetic and positive. The code computes
the same value, which is the double written `0.0001` of line 159 and does not exceed it, so
the slice locations decide: `edgeA < edgeB` is false and `edgeB < edgeA` is true. -/
theorem SliceInfo.lt_geometric_counterexample :
    (edgeA.HasImagePositionPatient = true ∧ edgeA.HasOrientation = true) ∧
      (edgeB.HasImagePositionPatient = true ∧ edgeB.HasOrientation = true) ∧
      edgeA.GantryTilt = edgeB.GantryTilt ∧ edgeA.SpacingType = edgeB.SpacingType ∧
      edgeA.PixelSpacing = edgeB.PixelSpacing ∧
      edgeA.Orientation0 = edgeB.Orientation0 ∧ edgeA.Orientation1 = edgeB.Orientation1 ∧
      edgeA.Orientation2 = cross edgeA.Orientation0 edgeA.Orientation1 ∧
      edgeB.Orientation2 = cross edgeB.Orientation0 edgeB.Orientation1 ∧
      edgeA.ImagePositionPatient = [0, 0, 0] ∧
      edgeB.ImagePositionPatient = [0, 0, Double.round (1 / 20000)] ∧
      exactDist edgeA edgeB = 7378697629483821 / 2 ^ 66 ∧
      (1 / 10000 : ℚ) < |exactDist edgeA edgeB| ∧ 0 < exactDist edgeA edgeB ∧
      edgeA.dist edgeB = lit0001 ∧
      edgeA.lt edgeB = false ∧ edgeB.lt edgeA = true := by
  decide!

/-- C4, amended: for two slices that both have position and orientation and share gantry
tilt, spacing provenance, pixel spacing and both in-plane axes, these shared numbers being
finite, with the stored normal being the cross product of the axes, let p be the dot product
of the sum of the normals with the displacement from `a` to `b` as the code computes it in
double arithmetic. If `fabs(p)` exceeds the double `0.0001` then `a < b` holds exactly when
`p > 0` and `b < a` exactly when `p < 0`, whatever the remaining fields are. -/
theorem SliceInfo.lt_geometric (a b : SliceInfo)
    (ha : a.HasImagePositionPatient = true ∧ a.HasOrientation = true)
    (hb : b.HasImagePositionPatient = true ∧ b.HasOrientation = true)
    (htilt : a.GantryTilt = b.GantryTilt) (hkind : a.SpacingType = b.SpacingType)
    (hps : a.PixelSpacing = b.PixelSpacing)
    (h0 : a.Orientation0 = b.Orientation0) (h1 : a.Orientation1 = b.Orientation1)
    (hfin : a.GantryTilt.isFinite = true ∧ (∀ x ∈ a.PixelSpacing, x.isFinite = true) ∧
      (∀ x ∈ a.Orientation0, x.isFinite = true) ∧ (∀ x ∈ a.Orientation1, x.isFinite = true))
    (hna : a.Orientation2 = cross a.Orientation0 a.Orientation1)
    (hnb : b.Orientation2 = cross b.Orientation0 b.Orientation1)
    (hp : Double.lt lit0001 (Double.abs (vsum (vmul (vadd (cross a.Orientation0 a.Orientation1)
        (cross b.Orientation0 b.Orientation1))
        (vsub b.ImagePositionPatient a.ImagePositionPatient)))) = true) :
    (a.lt b = true ↔
        Double.lt 0 (vsum (vmul (vadd (cross a.Orientation0 a.Orientation1)
          (cross b.Orientation0 b.Orientation1))
          (vsub b.ImagePositionPatient a.ImagePositionPatient))) = true) ∧
      (b.lt a = true ↔
        Double.lt (vsum (vmul (vadd (cross a.Orientation0 a.Orientation1)
          (cross b.Orientation0 b.Orientation1))
          (vsub b.ImagePositionPatient a.ImagePositionPatient))) 0 = true) := by
  rw [← hna, ← hnb] at hp ⊢
  have hd : Double.lt lit0001 (Double.abs (a.dist b)) = true := hp
  have hd' : Double.lt lit0001 (Double.abs (b.dist a)) = true := by
    rw [SliceInfo.dist_swap, dbl_abs_neg]; exact hd
  change (a.lt b = true ↔ Double.lt 0 (a.dist b) = true) ∧
    (b.lt a = true ↔ Double.lt (a.dist b) 0 = true)
  obtain ⟨hft, hfp, hf0, hf1⟩ := hfin
  have hgab : a.geomCond b = true :=
    SliceInfo.geomCond_of_shared a b ha htilt hkind hps h0 h1 hft hfp hf0 hf1
  have hgba : b.geomCond a = true :=
    SliceInfo.geomCond_of_shared b a hb htilt.symm hkind.symm hps.symm h0.symm h1.symm
      (by rw [← htilt]; exact hft) (by rw [← hps]; exact hfp) (by rw [← h0]; exact hf0)
      (by rw [← h1]; exact hf1)
  have hgeo : a.hasGeometry = b.hasGeometry := by
    simp [SliceInfo.hasGeometry, ha.1, ha.2, hb.1, hb.2]
  constructor
  · unfold SliceInfo.lt
    rw [if_neg (not_not.mpr hgeo), if_pos hgab, if_pos hd]
  · unfold SliceInfo.lt
    rw [if_neg (not_not.mpr hgeo.symm), if_pos hgba, if_pos hd', SliceInfo.dist_swap,
      dbl_lt_zero_neg]

/-- C4, the scenario of the specification: A at (0,0,0), B at (0,0,5), axes (1,0,0) and
(0,1,0) give `A < B` and not `B < A`. -/
theorem SliceInfo.lt_geometric_witness :
    geomA.lt geomB = true ∧ geomB.lt geomA = false := by
  have h := SliceInfo.lt_geometric geomA geomB (by decide) (by decide) (by decide!)
    (by decide) (by decide!) (by decide!) (by decide!) (by decide!) (by decide!) (by decide!)
    (by decide!)
  constructor
  · exact h.1.2 (by decide!)
  · cases hlt : geomB.lt geomA with
    | false => rfl
    | true =>
      have h2 := h.2.1 hlt
      have h3 : Double.lt (vsum (vmul (vadd (cross geomA.Orientation0 geomA.Orientation1)
          (cross geomB.Orientation0 geomB.Orientation1))
          (vsub geomB.ImagePositionPatient geomA.ImagePositionPatient))) 0 = false := by
        decide!
      rw [h3] at h2
      exact absurd h2 (by simp)

/-! ## The scalar keys -/

/-- C18, as stated, fails at the edge of the tolerance. `tolA` and `tolB` lack position
and laterality; the slice location of `tolA` is the double written `0.0001`, that of `tolB`
is 0, so they differ by 7378697629483821 / 2^66 > 1/10000; yet the code does not find the
difference greater than its `0.0001` and lets the acquisition numbers decide: `tolA < tolB`
holds although the slice location of `tolA` is not the smaller one. -/
theorem SliceInfo.lt_scalar_chain_counterexample :
    tolA.HasImagePositionPatient = false ∧ tolB.HasImagePositionPatient = false ∧
      tolA.Laterality = [] ∧ tolB.Laterality = [] ∧
      tolA.SliceLocation = lit0001 ∧
      (1 / 10000 : ℚ) < |tolA.SliceLocation.toRat - tolB.SliceLocation.toRat| ∧
      Double.lt tolA.SliceLocation tolB.SliceLocation = false ∧
      tolA.lt tolB = true := by
  decide!

/-- C18, amended: for two slices that both lack position and have empty laterality: if
`fabs` of the difference of the slice locations, computed in double arithmetic, exceeds the
double `0.0001`, then `a < b` iff `a.SliceLocation < b.SliceLocation`; a slice whose slice
location is the sentinel `DBL_MAX` comes after one whose slice location is a smaller finite
number (at least 1 smaller, as every other double is); otherwise the first differing key
among acquisition number, temporal position and instance number decides, ascending, and a
slice whose number is the sentinel `LONG_MAX` comes after one with a smaller number. -/
theorem SliceInfo.lt_scalar_chain (a b : SliceInfo)
    (hpa : a.HasImagePositionPatient = false) (hpb : b.HasImagePositionPatient = false)
    (hla : a.Laterality = []) (hlb : b.Laterality = []) :
    (Double.lt lit0001 (Double.abs (Double.sub a.SliceLocation b.SliceLocation)) = true →
        (a.lt b = true ↔ Double.lt a.SliceLocation b.SliceLocation = true)) ∧
      (∀ v : ℚ, a.SliceLocation = DBL_MAX → b.SliceLocation = Double.fin v →
        v ≤ (2 ^ 53 - 1) * 2 ^ 971 - 1 → b.lt a = true ∧ a.lt b = false) ∧
      (Double.lt lit0001 (Double.abs (Double.sub a.SliceLocation b.SliceLocation)) = false →
        (a.AcquisitionNumber ≠ b.AcquisitionNumber →
          (a.lt b = true ↔ a.AcquisitionNumber < b.AcquisitionNumber)) ∧
        (a.AcquisitionNumber = b.AcquisitionNumber →
          a.TemporalPosition ≠ b.TemporalPosition →
          (a.lt b = true ↔ a.TemporalPosition < b.TemporalPosition)) ∧
        (a.AcquisitionNumber = b.AcquisitionNumber →
          a.TemporalPosition = b.TemporalPosition → a.InstanceNumber ≠ b.InstanceNumber →
          (a.lt b = true ↔ a.InstanceNumber < b.InstanceNumber)) ∧
        (a.AcquisitionNumber = LONG_MAX → b.AcquisitionNumber < LONG_MAX →
          b.lt a = true ∧ a.lt b = false) ∧
        (a.AcquisitionNumber = b.AcquisitionNumber → a.TemporalPosition = LONG_MAX →
          b.TemporalPosition < LONG_MAX → b.lt a = true ∧ a.lt b = false) ∧
        (a.AcquisitionNumber = b.AcquisitionNumber →
          a.TemporalPosition = b.TemporalPosition → a.InstanceNumber = LONG_MAX →
          b.InstanceNumber < LONG_MAX → b.lt a = true ∧ a.lt b = false)) := by
  have hab : a.lt b = a.ltScalar b := by
    rw [SliceInfo.lt_of_no_position a b hpa hpb, SliceInfo.ltPaired_of_empty a b hla]
  have hba : b.lt a = b.ltScalar a := by
    rw [SliceInfo.lt_of_no_position b a hpb hpa, SliceInfo.ltPaired_of_empty b a hlb]
  rw [hab, hba]
  refine ⟨?_, ?_, ?_⟩
  · intro h
    unfold SliceInfo.ltScalar
    rw [if_pos h]
  · intro v hs hv hlt
    have hM : (2 ^ 53 - 1) * 2 ^ 971 - v ≥ (1 : ℚ) := by linarith
    have h1 : Double.lt lit0001 (Double.abs (Double.sub a.SliceLocation b.SliceLocation))
        = true := by
      rw [hs, hv]
      show Double.lt lit0001 (Double.abs (Double.round ((2 ^ 53 - 1) * 2 ^ 971 + -v))) = true
      apply dbl_lit_lt_abs_round
      rw [abs_of_nonneg (by linarith)]
      linarith
    have h2 : Double.lt lit0001 (Double.abs (Double.sub b.SliceLocation a.SliceLocation))
        = true := by
      rw [dbl_abs_sub_swap]; exact h1
    unfold SliceInfo.ltScalar
    rw [if_pos h1, if_pos h2, hs, hv]
    have hlt1 : v < (2 ^ 53 - 1) * 2 ^ 971 := by linarith
    simp only [DBL_MAX, Double.lt, decide_eq_true_eq, decide_eq_false_iff_not, not_lt]
    exact ⟨hlt1, le_of_lt hlt1⟩
  · intro h
    have h1 : ¬ (Double.lt lit0001 (Double.abs (Double.sub a.SliceLocation b.SliceLocation))
        = true) := by rw [h]; simp
    have h2 : ¬ (Double.lt lit0001 (Double.abs (Double.sub b.SliceLocation a.SliceLocation))
        = true) := by rw [dbl_abs_sub_swap]; exact h1
    unfold SliceInfo.ltScalar
    rw [if_neg h1, if_neg h2]
    refine ⟨?_, ?_, ?_, ?_, ?_, ?_⟩
    · intro hq
      rw [if_pos hq]
      simp
    · intro hq ht
      rw [if_neg (not_not.mpr hq), if_pos ht]
      simp
    · intro hq ht hi
      rw [if_neg (not_not.mpr hq), if_neg (not_not.mpr ht), if_pos hi]
      simp
    · intro hs hlt
      have hne : b.AcquisitionNumber ≠ a.AcquisitionNumber := by rw [hs]; exact ne_of_lt hlt
      have hlt' : b.AcquisitionNumber < a.AcquisitionNumber := by rw [hs]; exact hlt
      rw [if_pos hne, if_pos (Ne.symm hne)]
      exact ⟨by simpa using hlt', by simpa using le_of_lt hlt'⟩
    · intro hq hs hlt
      have hne : b.TemporalPosition ≠ a.TemporalPosition := by rw [hs]; exact ne_of_lt hlt
      have hlt' : b.TemporalPosition < a.TemporalPosition := by rw [hs]; exact hlt
      rw [if_neg (not_not.mpr hq.symm), if_neg (not_not.mpr hq), if_pos hne,
        if_pos (Ne.symm hne)]
      exact ⟨by simpa using hlt', by simpa using le_of_lt hlt'⟩
    · intro hq ht hs hlt
      have hne : b.InstanceNumber ≠ a.InstanceNumber := by rw [hs]; exact ne_of_lt hlt
      have hlt' : b.InstanceNumber < a.InstanceNumber := by rw [hs]; exact hlt
      rw [if_neg (not_not.mpr hq.symm), if_neg (not_not.mpr hq), if_neg (not_not.mpr ht.symm),
        if_neg (not_not.mpr ht), if_pos hne, if_pos (Ne.symm hne)]
      exact ⟨by simpa using hlt', by simpa using le_of_lt hlt'⟩

/-- C18 on the slices of `chainA`: `chainC` (slice location 0) precedes `chainA` (2^-13) by
slice location; `chainA` (acquisition number 1) precedes `chainB` (2) by acquisition number,
their slice locations being closer than the tolerance; `plainA` has neither slice location
nor acquisition number and comes after `chainA`. -/
theorem SliceInfo.lt_scalar_chain_witness :
    chainC.lt chainA = true ∧ chainA.lt chainB = true ∧
      (chainA.lt plainA = true ∧ plainA.lt chainA = false) :=
  ⟨((SliceInfo.lt_scalar_chain chainC chainA rfl rfl rfl rfl).1 (by decide!)).2 (by decide!),
    (((SliceInfo.lt_scalar_chain chainA chainB rfl rfl rfl rfl).2.2 (by decide!)).1
      (by decide)).2 (by decide),
    (SliceInfo.lt_scalar_chain plainA chainA rfl rfl rfl rfl).2.1 (1 / 8192) rfl rfl
      (by norm_num)⟩

/-! ## The cross product -/

/-- C19, as stated, fails in its orthogonality part: for a = (0.6, 0.8, 0) and
b = (0, 0.6, 0.8) in doubles, cross(a, b) = (0.64.., -0.48, 0.36) and its dot product with a,
as `(cross(a, b) * a).sum()` computes it, is 2^-54, not 0. -/
theorem cross_is_cross_product_counterexample :
    slantA = [Double.fin (5404319552844595 / 2 ^ 53), Double.fin (3602879701896397 / 2 ^ 52), 0] ∧
      slantB
        = [0, Double.fin (5404319552844595 / 2 ^ 53), Double.fin (3602879701896397 / 2 ^ 52)] ∧
      vsum (vmul (cross slantA slantB) slantA) = Double.fin (1 / 2 ^ 54) := by
  decide!

/-- C19, amended: `cross` is the cross product of 3-vectors component by component, each
product and each difference rounded to a double. It is orthogonal to both arguments (both dot
products, computed as `(cross(a, b) * a).sum()`, are 0) when the components of `a` and `b` are
integers of absolute value at most 4096, as for axis-aligned direction cosines, where nothing
is rounded; `cross((1,0,0),(0,1,0)) = (0,0,1)`; and when the orientation extraction succeeds
the third output vector is the cross product of the first two, so that after a successful
`fill` with `HasOrientation` set `Orientation[2] = cross(Orientation[0], Orientation[1])`. -/
theorem cross_is_cross_product (a0 a1 a2 b0 b1 b2 : Double) (p : Parsers) (this : SliceInfo)
    (r0 r1 r2 : Vector3D) (tag : DcmTagKey) (d1 : DcmItem) (d2 : Option DcmItem) :
    cross [a0, a1, a2] [b0, b1, b2]
        = [Double.sub (Double.mul a1 b2) (Double.mul a2 b1),
            Double.sub (Double.mul a2 b0) (Double.mul a0 b2),
            Double.sub (Double.mul a0 b1) (Double.mul a1 b0)] ∧
      (∀ i0 i1 i2 j0 j1 j2 : Int,
        |i0| ≤ 4096 ∧ |i1| ≤ 4096 ∧ |i2| ≤ 4096 → |j0| ≤ 4096 ∧ |j1| ≤ 4096 ∧ |j2| ≤ 4096 →
        vsum (vmul (cross [Double.fin i0, Double.fin i1, Double.fin i2]
              [Double.fin j0, Double.fin j1, Double.fin j2])
            [Double.fin i0, Double.fin i1, Double.fin i2]) = 0 ∧
          vsum (vmul (cross [Double.fin i0, Double.fin i1, Double.fin i2]
              [Double.fin j0, Double.fin j1, Double.fin j2])
            [Double.fin j0, Double.fin j1, Double.fin j2]) = 0) ∧
      cross [1, 0, 0] [0, 1, 0] = [0, 0, 1] ∧
      ((getTagOrientation p r0 r1 r2 tag d1 d2).1 = true →
        (getTagOrientation p r0 r1 r2 tag d1 d2).2.2.2
          = cross (getTagOrientation p r0 r1 r2 tag d1 d2).2.1
              (getTagOrientation p r0 r1 r2 tag d1 d2).2.2.1) ∧
      ((SliceInfo.fill p this d1 d2).1 = true →
        (SliceInfo.fill p this d1 d2).2.HasOrientation = true →
        (SliceInfo.fill p this d1 d2).2.Orientation2
          = cross (SliceInfo.fill p this d1 d2).2.Orientation0
              (SliceInfo.fill p this d1 d2).2.Orientation1) := by
  have hc : cross [a0, a1, a2] [b0, b1, b2]
      = [Double.sub (Double.mul a1 b2) (Double.mul a2 b1),
          Double.sub (Double.mul a2 b0) (Double.mul a0 b2),
          Double.sub (Double.mul a0 b1) (Double.mul a1 b0)] := by
    simp [cross, cshift, vmul, vsub]
  have hext : ∀ (q0 q1 q2 : Vector3D) (t : DcmTagKey),
      (getTagOrientation p q0 q1 q2 t d1 d2).1 = true →
      (getTagOrientation p q0 q1 q2 t d1 d2).2.2.2
        = cross (getTagOrientation p q0 q1 q2 t d1 d2).2.1
            (getTagOrientation p q0 q1 q2 t d1 d2).2.2.1 := by
    intro q0 q1 q2 t
    unfold getTagOrientation
    dsimp only
    split
    · split
      · intro _; rfl
      · intro h; simp at h
    · intro h; simp at h
  refine ⟨hc, cross_orthogonal_int, cross_unit_axes, hext r0 r1 r2 tag, ?_⟩
  intro hok hori
  unfold SliceInfo.fill at hok hori ⊢
  dsimp only at hok hori ⊢
  split at hok
  · simp at hok
  · rename_i hne
    rw [if_neg hne] at hori ⊢
    exact hext _ _ _ _ hori

/-- C19 on `wideFile1`, whose ImageOrientationPatient is "1\0\0\0\1\0": the extraction
succeeds and the stored normal is (0,0,1); and on the integer vectors (3,-4,12) and (0,5,-7),
whose cross product is orthogonal to the first of them. -/
theorem cross_is_cross_product_witness :
    (SliceInfo.fill digitParsers {} wideFile1.dataset (some wideFile1.metaInfo)).2.Orientation2
        = [0, 0, 1] ∧
      vsum (vmul (cross [Double.fin ((3 : Int) : ℚ), Double.fin ((-4 : Int) : ℚ),
            Double.fin ((12 : Int) : ℚ)]
          [Double.fin ((0 : Int) : ℚ), Double.fin ((5 : Int) : ℚ), Double.fin ((-7 : Int) : ℚ)])
        [Double.fin ((3 : Int) : ℚ), Double.fin ((-4 : Int) : ℚ), Double.fin ((12 : Int) : ℚ)])
        = 0 := by
  have h := (cross_is_cross_product 1 0 0 0 1 0 digitParsers {} Vector3D.zero Vector3D.zero
    Vector3D.zero DCM_ImageOrientationPatient wideFile1.dataset
    (some wideFile1.metaInfo)).2.2.2.2 (by decide!) (by decide!)
  have h0 : (SliceInfo.fill digitParsers {} wideFile1.dataset
      (some wideFile1.metaInfo)).2.Orientation0 = [1, 0, 0] := by decide!
  have h1 : (SliceInfo.fill digitParsers {} wideFile1.dataset
      (some wideFile1.metaInfo)).2.Orientation1 = [0, 1, 0] := by decide!
  have hi := ((cross_is_cross_product 1 0 0 0 1 0 digitParsers {} Vector3D.zero Vector3D.zero
    Vector3D.zero DCM_ImageOrientationPatient wideFile1.dataset
    (some wideFile1.metaInfo)).2.1 3 (-4) 12 0 5 (-7) (by decide) (by decide)).1
  constructor
  · rw [h, h0, h1]
    exact cross_unit_axes
  · exact hi

/-! ## Inserting a slice twice -/

/-- C9: a slice can be stored twice. Inserting `wideA`, `wideB` and `chainC` into the empty
slice set gives a set that iterates as `chainC`, `wideB`, `wideA`; inserting the same
`wideA` again gives `chainC`, `wideA`, `wideB`, `wideA`: `chainC` is less than the
descriptor and the descriptor is less than `wideB` (as `wideB` is less than it), so it is
stored in front of `wideB` and the stored copy behind `wideB` is never looked at. In the tree
of libstdc++: `wideB` becomes the root after the rotation that follows the insertion of
`chainC`, with `chainC` and `wideA` as its children; the second `wideA` goes left of `wideB`,
right of `chainC`, and is stored since its predecessor `chainC` is less than it. The same
happens in the scan: after the files "a", "b", "c" of one series (`wideFile1`, `wideFile2`,
`flatFile`, whose slices are `wideA`, `wideB`, `chainC`), scanning file "a" once more makes
the series list it twice. -/
theorem SliceInfo.emplace_stores_two_copies :
    setEmplace SliceInfo.lt (setEmplace SliceInfo.lt (setEmplace SliceInfo.lt [] wideA) wideB)
        chainC = [chainC, wideB, wideA] ∧
      setEmplace SliceInfo.lt [chainC, wideB, wideA] wideA = [chainC, wideA, wideB, wideA] ∧
      List.count wideA (setEmplace SliceInfo.lt [chainC, wideB, wideA] wideA) = 2 ∧
      (wideFile1.slice digitParsers = wideA ∧ wideFile2.slice digitParsers = wideB ∧
        flatFile.slice digitParsers = chainC) ∧
      (SeriesSet.scanDirectory digitParsers [] [wideFile1, wideFile2, flatFile]).fileNames
        = [[[99], [98], [97]]] ∧
      (SeriesSet.scanDirectory digitParsers
          (SeriesSet.scanDirectory digitParsers [] [wideFile1, wideFile2, flatFile])
          [wideFile1]).fileNames = [[[99], [97], [98], [97]]] := by
  decide!

/-! ## The series ordering -/

/-- C8: `SeriesInfo::operator<` is not transitive on `seriesA`, `seriesB`, `seriesC`: the
patient block is skipped for `seriesA`, `seriesB` (same PatientID) and for `seriesB`,
`seriesC` (same IssuerOfPatientID), where the study dates give `seriesA < seriesB` and
`seriesB < seriesC`; it is entered for `seriesA`, `seriesC`, where the patient names give
`seriesC < seriesA`. -/
theorem SeriesInfo.lt_not_transitive :
    seriesA.lt seriesB = true ∧ seriesB.lt seriesC = true ∧ seriesA.lt seriesC = false ∧
      seriesC.lt seriesA = true := by
  decide

/-! ## The scan -/

/-- C5, as stated, fails in three ways. `studyFile1` and `studyFile2` both pass extraction
and have the same non-empty SeriesInstanceUID "7"; their StudyInstanceUID differ, and the
scan puts them into two series. `ownerFile1` and `ownerFile2` have the same SeriesInstanceUID
and StudyInstanceUID; their PatientID and IssuerOfPatientID both differ, and the scan puts
them into two series. `viewFileB` and `viewFileD` agree in every series field (series "2" of
study "1"), but scanned after `viewFileA` and `viewFileC` of series "1" they end up in two
series: the series of file "a" holds two slices when file "d" is looked up, the paired rule
of lines 200-206 no longer applies, "d" is less than that series by SeriesNumber, and the
lookup stops before reaching the series of file "b". In the tree of libstdc++: the series A
of file "a" is the root and B, appended by the hint since A < B by view position, its right
child; file "c" is found equivalent to A; for "d", `find` takes A as lower bound (A < D is
false) and returns `end()` since D < A; `emplace_hint` finds B not less than D and inserts D
as the left child of A; the set iterates D, A, B. -/
theorem SeriesSet.scan_equal_series_uid_counterexample :
    (studyFile1.usable digitParsers = true ∧ studyFile2.usable digitParsers = true ∧
      (studyFile1.series digitParsers).SeriesInstanceUID = [55] ∧
      (studyFile2.series digitParsers).SeriesInstanceUID = [55] ∧
      (SeriesSet.scanDirectory digitParsers [] [studyFile1, studyFile2]).fileNames
        = [[[97]], [[98]]]) ∧
      (ownerFile1.usable digitParsers = true ∧ ownerFile2.usable digitParsers = true ∧
        (ownerFile1.series digitParsers).SeriesInstanceUID = [55] ∧
        (ownerFile2.series digitParsers).SeriesInstanceUID = [55] ∧
        (ownerFile1.series digitParsers).StudyInstanceUID
          = (ownerFile2.series digitParsers).StudyInstanceUID ∧
        (SeriesSet.scanDirectory digitParsers [] [ownerFile1, ownerFile2]).fileNames
          = [[[97]], [[98]]]) ∧
      (viewFileA.usable digitParsers = true ∧ viewFileB.usable digitParsers = true ∧
        viewFileC.usable digitParsers = true ∧ viewFileD.usable digitParsers = true ∧
        (viewFileB.series digitParsers).SeriesInstanceUID = [50] ∧
        viewFileB.series digitParsers = viewFileD.series digitParsers ∧
        (SeriesSet.scanDirectory digitParsers [] [viewFileA, viewFileB, viewFileC,
          viewFileD]).fileNames = [[[100]], [[97], [99]], [[98]]]) := by
  decide!

/-- C5, amended: when all the files of a scan into the empty set pass extraction and carry
the same non-empty SeriesInstanceUID, the same StudyInstanceUID, the same PatientID and the
same IssuerOfPatientID, the scan yields one series, with the descriptor of the first file,
whatever the other series fields are. Its slice set holds the slice of the first file; the
slice of each later file is held too, unless a held slice is neither less nor greater than
it; and it holds nothing but slices of these files. A file whose StudyInstanceUID differs
from that of the first file is not put into the same series, even when their
SeriesInstanceUID are equal: scanned after it, it gets a series of its own. -/
theorem SeriesSet.scan_equal_series_uid (p : Parsers) (f : DcmFile) (fs : List DcmFile)
    (hu : ∀ g ∈ f :: fs, g.usable p = true)
    (_hne : (f.series p).SeriesInstanceUID ≠ [])
    (hsame : ∀ g ∈ fs,
      (g.series p).SeriesInstanceUID = (f.series p).SeriesInstanceUID ∧
        (g.series p).StudyInstanceUID = (f.series p).StudyInstanceUID ∧
        (g.series p).PatientID = (f.series p).PatientID ∧
        (g.series p).IssuerOfPatientID = (f.series p).IssuerOfPatientID) :
    (∃ l, SeriesSet.scanDirectory p [] (f :: fs) = [(f.series p).withSlices l] ∧
        f.slice p ∈ l ∧
        (∀ g ∈ fs, g.slice p ∈ l ∨
          ∃ y ∈ l, (g.slice p).lt y = false ∧ y.lt (g.slice p) = false) ∧
        (∀ y ∈ l, ∃ g ∈ f :: fs, y = g.slice p)) ∧
      (∀ h : DcmFile, h.usable p = true →
        (f.series p).StudyInstanceUID ≠ (h.series p).StudyInstanceUID →
        SeriesSet.scanDirectory p [] [f, h]
            = [(f.series p).withSlices [f.slice p], (h.series p).withSlices [h.slice p]] ∨
          SeriesSet.scanDirectory p [] [f, h]
            = [(h.series p).withSlices [h.slice p], (f.series p).withSlices [f.slice p]]) :=
  ⟨SeriesSet.scan_single_series p f fs hu hsame,
    fun h hh hne => SeriesSet.scan_pair_apart p f h (hu f (List.mem_cons_self f fs)) hh
      (fun hc => hne hc.1)⟩

/-- C5, amended, on `studyFile1`, `studyFile3` and `studyFile4` (series "7" of study "1", no
patient tags; the third with its own study date, series number and modality): one series,
listing the three files. -/
theorem SeriesSet.scan_equal_series_uid_witness :
    (∃ l, SeriesSet.scanDirectory digitParsers [] [studyFile1, studyFile3, studyFile4]
          = [(studyFile1.series digitParsers).withSlices l] ∧
        studyFile1.slice digitParsers ∈ l ∧
        (∀ g ∈ [studyFile3, studyFile4], g.slice digitParsers ∈ l ∨
          ∃ y ∈ l, (g.slice digitParsers).lt y = false ∧ y.lt (g.slice digitParsers) = false) ∧
        (∀ y ∈ l, ∃ g ∈ [studyFile1, studyFile3, studyFile4], y = g.slice digitParsers)) ∧
      (SeriesSet.scanDirectory digitParsers [] [studyFile1, studyFile3, studyFile4]).fileNames
        = [[[97], [98], [99]]] :=
  ⟨(SeriesSet.scan_equal_series_uid digitParsers studyFile1 [studyFile3, studyFile4]
      (by decide!) (by decide!) (by decide!)).1, by decide!⟩

/-- C6, as stated, fails in two ways. `patientFile1` and `patientFile2` both pass
extraction, have no SeriesInstanceUID and the same StudyInstanceUID "1.2.3"; their PatientID
and IssuerOfPatientID both differ, and the scan puts them into two series. `bareFileB` and
`bareFileD` have no SeriesInstanceUID and agree in every series field, but scanned after
`viewFileA` and `viewFileC` of series "1" of the same study they end up in two series: the
series of file "a" holds two slices when file "d" is looked up, the paired rule of lines
200-206 no longer applies, "d" is less than that series by SeriesNumber, and the lookup stops
before reaching the series of file "b". In the tree of libstdc++: the series A of file "a" is
the root and B, appended by the hint since A < B by view position, its right child; file "c"
is found equivalent to A; for "d", `find` takes A as lower bound (A < D is false) and returns
`end()` since D < A; `emplace_hint` finds B not less than D and inserts D as the left child
of A; the set iterates D, A, B. -/
theorem SeriesSet.scan_equal_study_uid_counterexample :
    (patientFile1.usable digitParsers = true ∧ patientFile2.usable digitParsers = true ∧
      (patientFile1.series digitParsers).SeriesInstanceUID = [] ∧
      (patientFile2.series digitParsers).SeriesInstanceUID = [] ∧
      (patientFile1.series digitParsers).StudyInstanceUID = [49, 46, 50, 46, 51] ∧
      (patientFile2.series digitParsers).StudyInstanceUID = [49, 46, 50, 46, 51] ∧
      (SeriesSet.scanDirectory digitParsers [] [patientFile1, patientFile2]).fileNames
        = [[[97]], [[98]]]) ∧
      (viewFileA.usable digitParsers = true ∧ bareFileB.usable digitParsers = true ∧
        viewFileC.usable digitParsers = true ∧ bareFileD.usable digitParsers = true ∧
        (bareFileB.series digitParsers).SeriesInstanceUID = [] ∧
        (bareFileB.series digitParsers).StudyInstanceUID = [49] ∧
        bareFileB.series digitParsers = bareFileD.series digitParsers ∧
        (SeriesSet.scanDirectory digitParsers [] [viewFileA, bareFileB, viewFileC,
          bareFileD]).fileNames = [[[100]], [[97], [99]], [[98]]]) := by
  decide!

/-- C6, amended: when all the files of a scan into the empty set pass extraction, have an
empty SeriesInstanceUID and carry the same non-empty StudyInstanceUID, the same PatientID and
the same IssuerOfPatientID, the scan yields a single series, with the descriptor of the first
file, whatever their patient name, birth date, study date, series number and other fields
are. Its slice set holds the slice of the first file; the slice of each later file is held
too, unless a held slice is neither less nor greater than it; and it holds nothing but slices
of these files. A file whose PatientID and IssuerOfPatientID both differ from those of the
first file is not put into the same series: scanned after it, it gets a series of its own. -/
theorem SeriesSet.scan_equal_study_uid (p : Parsers) (f : DcmFile) (fs : List DcmFile)
    (hu : ∀ g ∈ f :: fs, g.usable p = true)
    (hempty : ∀ g ∈ f :: fs, (g.series p).SeriesInstanceUID = [])
    (_hne : (f.series p).StudyInstanceUID ≠ [])
    (hsame : ∀ g ∈ fs,
      (g.series p).StudyInstanceUID = (f.series p).StudyInstanceUID ∧
        (g.series p).PatientID = (f.series p).PatientID ∧
        (g.series p).IssuerOfPatientID = (f.series p).IssuerOfPatientID) :
    (∃ l, SeriesSet.scanDirectory p [] (f :: fs) = [(f.series p).withSlices l] ∧
        f.slice p ∈ l ∧
        (∀ g ∈ fs, g.slice p ∈ l ∨
          ∃ y ∈ l, (g.slice p).lt y = false ∧ y.lt (g.slice p) = false) ∧
        (∀ y ∈ l, ∃ g ∈ f :: fs, y = g.slice p)) ∧
      (∀ h : DcmFile, h.usable p = true →
        (f.series p).PatientID ≠ (h.series p).PatientID →
        (f.series p).IssuerOfPatientID ≠ (h.series p).IssuerOfPatientID →
        SeriesSet.scanDirectory p [] [f, h]
            = [(f.series p).withSlices [f.slice p], (h.series p).withSlices [h.slice p]] ∨
          SeriesSet.scanDirectory p [] [f, h]
            = [(h.series p).withSlices [h.slice p], (f.series p).withSlices [f.slice p]]) :=
  ⟨SeriesSet.scan_single_series p f fs hu (fun g hg =>
      ⟨(hempty g (List.mem_cons_of_mem f hg)).trans (hempty f (List.mem_cons_self f fs)).symm,
        hsame g hg⟩),
    fun h hh hid hiss => SeriesSet.scan_pair_apart p f h (hu f (List.mem_cons_self f fs)) hh
      (fun hc => hc.2.2 ⟨hid, hiss⟩)⟩

/-- C6, amended, on `patientFile1`, `patientFile4` and `patientFile5` (no SeriesInstanceUID,
study "1.2.3", PatientID "1" of issuer "1"; patient names "A", "B", "C", the third with its
own birth date, study date and series number): one series, listing the three files. -/
theorem SeriesSet.scan_equal_study_uid_witness :
    (∃ l, SeriesSet.scanDirectory digitParsers [] [patientFile1, patientFile4, patientFile5]
          = [(patientFile1.series digitParsers).withSlices l] ∧
        patientFile1.slice digitParsers ∈ l ∧
        (∀ g ∈ [patientFile4, patientFile5], g.slice digitParsers ∈ l ∨
          ∃ y ∈ l, (g.slice digitParsers).lt y = false ∧ y.lt (g.slice digitParsers) = false) ∧
        (∀ y ∈ l, ∃ g ∈ [patientFile1, patientFile4, patientFile5],
          y = g.slice digitParsers)) ∧
      (SeriesSet.scanDirectory digitParsers [] [patientFile1, patientFile4,
        patientFile5]).fileNames = [[[97], [98], [99]]] :=
  ⟨(SeriesSet.scan_equal_study_uid digitParsers patientFile1 [patientFile4, patientFile5]
      (by decide!) (by decide!) (by decide!) (by decide!)).1, by decide!⟩

/-- C7: the scan depends on the order of the files: `wideFile1` ("a") and `wideFile2` ("b")
belong to the same series and each of their slices is less than the other; scanned as a, b
the series lists b before a, scanned as b, a it lists a before b. -/
theorem SeriesSet.scan_order_dependent :
    (SeriesSet.scanDirectory digitParsers [] [wideFile1, wideFile2]).fileNames
        = [[[98], [97]]] ∧
      (SeriesSet.scanDirectory digitParsers [] [wideFile2, wideFile1]).fileNames
        = [[[97], [98]]] := by
  constructor
  · rw [SeriesSet.scan_pair_match digitParsers wideFile1 wideFile2 (by decide) (by decide)
      (by decide) (by decide) (Or.inl (by decide)),
      setEmplace_single, wideFile1_slice, wideFile2_slice, wideB_lt_wideA]
    rfl
  · rw [SeriesSet.scan_pair_match digitParsers wideFile2 wideFile1 (by decide) (by decide)
      (by decide) (by decide) (Or.inl (by decide)),
      setEmplace_single, wideFile1_slice, wideFile2_slice, wideA_lt_wideB]
    rfl

/-- C10: a file in which none of SOPInstanceUID, ReferencedSOPInstanceUIDInFile and
MediaStorageSOPInstanceUID is found, or in which SeriesInstanceUID and StudyInstanceUID are
both empty, leaves the set unchanged; so scanning any list of such files leaves any set
unchanged, and scanning them (or no file at all) into the empty set yields the empty set. -/
theorem SeriesSet.scan_skips_unusable (p : Parsers) (set : SeriesSet) (files : List DcmFile)
    (h : ∀ f ∈ files,
      (stringTag DCM_SOPInstanceUID f.dataset (some f.metaInfo) false = [] ∧
        stringTag DCM_ReferencedSOPInstanceUIDInFile f.dataset (some f.metaInfo) false = [] ∧
        stringTag DCM_MediaStorageSOPInstanceUID f.dataset (some f.metaInfo) false = []) ∨
      (stringTag DCM_SeriesInstanceUID f.dataset (some f.metaInfo) false = [] ∧
        stringTag DCM_StudyInstanceUID f.dataset (some f.metaInfo) false = [])) :
    (∀ f ∈ files, SeriesSet.step p set f = set) ∧
      SeriesSet.scanDirectory p set files = set ∧
      SeriesSet.scanDirectory p [] files = [] ∧
      SeriesSet.scanDirectory p [] [] = [] :=
  ⟨fun f hf => SeriesSet.step_skip p set f (h f hf),
    SeriesSet.scan_all_skipped p files (fun f hf s => SeriesSet.step_skip p s f (h f hf)) set,
    SeriesSet.scan_all_skipped p files (fun f hf s => SeriesSet.step_skip p s f (h f hf)) [],
    rfl⟩

/-- C10 on `emptyFile` (no tag at all) and `orphanFile` (a SOPInstanceUID but neither series
nor study UID): scanning them leaves the set holding `seriesA` unchanged and leaves the empty
set empty. -/
theorem SeriesSet.scan_skips_unusable_witness :
    SeriesSet.scanDirectory digitParsers [seriesA] [emptyFile, orphanFile] = [seriesA] ∧
      SeriesSet.scanDirectory digitParsers [] [emptyFile, orphanFile] = [] :=
  have h := SeriesSet.scan_skips_unusable digitParsers [seriesA] [emptyFile, orphanFile]
    (by decide)
  ⟨h.2.1, h.2.2.1⟩

/-! ## Extraction -/

/-- C15: a malformed vector tag is not treated as an absent one. With the one-component
PixelSpacing "2" the first component is stored before the missing second one makes the
extraction fail, so `fill` leaves PixelSpacing at (2, 1); with the tag absent it stays at the
default (1, 1). Both calls succeed and leave the spacing provenance unknown. -/
theorem SliceInfo.fill_short_spacing :
    (SliceInfo.fill digitParsers {} shortSpacingItem (some (itemOf []))).1 = true ∧
      (SliceInfo.fill digitParsers {} noSpacingItem (some (itemOf []))).1 = true ∧
      (SliceInfo.fill digitParsers {} shortSpacingItem (some (itemOf []))).2.PixelSpacing
        = [2, 1] ∧
      (SliceInfo.fill digitParsers {} noSpacingItem (some (itemOf []))).2.PixelSpacing
        = [1, 1] ∧
      (SliceInfo.fill digitParsers {} shortSpacingItem (some (itemOf []))).2.SpacingType
        = SpacingKind.SpacingUnknown ∧
      (SliceInfo.fill digitParsers {} noSpacingItem (some (itemOf []))).2.SpacingType
        = SpacingKind.SpacingUnknown := by
  decide!

/-- C16: for every pair of metadata regions, `SliceInfo::fill` succeeds iff one of
SOPInstanceUID, ReferencedSOPInstanceUIDInFile, MediaStorageSOPInstanceUID is non-empty in the
dataset or in the file meta region, and the stored identifier is the value of the first of
these tags that is non-empty, each tag taking its dataset value when non-empty and its
file-meta value otherwise. -/
theorem SliceInfo.fill_identifier (p : Parsers) (this : SliceInfo) (dataset fileMeta : DcmItem) :
    ((SliceInfo.fill p this dataset (some fileMeta)).1 = true ↔
        ∃ tag ∈ [DCM_SOPInstanceUID, DCM_ReferencedSOPInstanceUIDInFile,
            DCM_MediaStorageSOPInstanceUID],
          dataset.findAndGetOFStringArray tag false ≠ [] ∨
            fileMeta.findAndGetOFStringArray tag false ≠ []) ∧
      (SliceInfo.fill p this dataset (some fileMeta)).2.SOPInstanceUID
        = specIdentifier dataset fileMeta := by
  have hres : resolveSOPInstanceUID dataset (some fileMeta) = specIdentifier dataset fileMeta := by
    simp only [resolveSOPInstanceUID, specIdentifier, specTagValue, stringTag, List.isEmpty_iff]
    by_cases h1 : dataset.findAndGetOFStringArray DCM_SOPInstanceUID false = [] <;>
      by_cases h2 : fileMeta.findAndGetOFStringArray DCM_SOPInstanceUID false = [] <;>
      by_cases h3 : dataset.findAndGetOFStringArray DCM_ReferencedSOPInstanceUIDInFile false = []
        <;>
      by_cases h4 : fileMeta.findAndGetOFStringArray DCM_ReferencedSOPInstanceUIDInFile false
        = [] <;>
      simp [h1, h2, h3, h4]
  have hflag : (SliceInfo.fill p this dataset (some fileMeta)).1
      = !(resolveSOPInstanceUID dataset (some fileMeta)).isEmpty := by
    unfold SliceInfo.fill
    dsimp only
    split <;> simp_all
  have huid : (SliceInfo.fill p this dataset (some fileMeta)).2.SOPInstanceUID
      = resolveSOPInstanceUID dataset (some fileMeta) := by
    unfold SliceInfo.fill
    dsimp only
    split <;> rfl
  refine ⟨?_, by rw [huid, hres]⟩
  rw [hflag, hres]
  simp only [specIdentifier, specTagValue, List.mem_cons, List.mem_singleton,
    List.not_mem_nil, or_false, exists_eq_or_imp, exists_eq_left, Bool.not_eq_true',
    List.isEmpty_eq_false, ne_eq]
  by_cases h1 : dataset.findAndGetOFStringArray DCM_SOPInstanceUID false = [] <;>
    by_cases h2 : fileMeta.findAndGetOFStringArray DCM_SOPInstanceUID false = [] <;>
    by_cases h3 : dataset.findAndGetOFStringArray DCM_ReferencedSOPInstanceUIDInFile false = []
      <;>
    by_cases h4 : fileMeta.findAndGetOFStringArray DCM_ReferencedSOPInstanceUIDInFile false
      = [] <;>
    by_cases h5 : dataset.findAndGetOFStringArray DCM_MediaStorageSOPInstanceUID false = [] <;>
    simp [h1, h2, h3, h4, h5]

/-! ## The series ordering, case by case -/

/-- C17: for two series of the same study (patient block not entered, equal
StudyInstanceUID) with different SeriesInstanceUID, each holding exactly one slice, where both
slices lack position and have non-empty laterality: if the view positions of the slices
differ, `a < b` iff the view position of the slice of `a` is less; if they are equal and the
lateralities differ, `a < b` iff the laterality of the slice of `a` is greater. Series number,
series time, modality, SOP class and SeriesInstanceUID are not consulted. -/
theorem SeriesInfo.lt_paired_single (a b : SeriesInfo) (x y : SliceInfo)
    (hpat : ¬ (a.PatientID ≠ b.PatientID ∧ a.IssuerOfPatientID ≠ b.IssuerOfPatientID))
    (hstudy : a.StudyInstanceUID = b.StudyInstanceUID)
    (hseries : a.SeriesInstanceUID ≠ b.SeriesInstanceUID)
    (hxa : a.slices = [x]) (hyb : b.slices = [y])
    (hx : x.HasImagePositionPatient = false ∧ x.Laterality ≠ [])
    (_hy : y.HasImagePositionPatient = false ∧ y.Laterality ≠ []) :
    (x.ViewPosition ≠ y.ViewPosition →
        (a.lt b = true ↔ strLt x.ViewPosition y.ViewPosition = true)) ∧
      (x.ViewPosition = y.ViewPosition → x.Laterality ≠ y.Laterality →
        (a.lt b = true ↔ strLt y.Laterality x.Laterality = true)) := by
  have hc : ((!x.HasImagePositionPatient && !x.Laterality.isEmpty)
      || (!y.HasImagePositionPatient && !y.Laterality.isEmpty)) = true := by
    simp [hx.1, hx.2]
  have hlt : a.lt b = a.ltSeries b := by
    unfold SeriesInfo.lt
    rw [if_neg hpat, if_neg (not_not.mpr hstudy), if_pos hseries]
  rw [hlt, SeriesInfo.ltSeries_single a b x y hxa hyb, if_pos hc]
  constructor
  · intro hvp
    rw [if_pos hvp]
  · intro hvp hlat
    rw [if_neg (not_not.mpr hvp), if_pos hlat]

/-- C17 on the single-slice series CC/R (series number 2) and CC/L (series number 1) of one
study: R precedes L although its series number is the greater one. -/
theorem SeriesInfo.lt_paired_single_witness : pairedSeriesR.lt pairedSeriesL = true :=
  ((SeriesInfo.lt_paired_single pairedSeriesR pairedSeriesL pairedR pairedL (by decide) rfl
    (by decide) rfl rfl ⟨rfl, by decide⟩ ⟨rfl, by decide⟩).2 rfl (by decide)).2 (by decide)

/-- C20: under `SeriesInfo::operator<` neither `a < b` nor `b < a` holds iff the
StudyInstanceUID are equal, the SeriesInstanceUID are equal and PatientID and
IssuerOfPatientID do not both differ; this is when the lookup in a set holding `a` finds `a`
for `b`. No other field and no slice enters the condition. -/
theorem SeriesInfo.lt_neither_iff (a b : SeriesInfo) :
    ((a.lt b = false ∧ b.lt a = false) ↔
        (a.StudyInstanceUID = b.StudyInstanceUID ∧
          a.SeriesInstanceUID = b.SeriesInstanceUID ∧
          ¬ (a.PatientID ≠ b.PatientID ∧ a.IssuerOfPatientID ≠ b.IssuerOfPatientID))) ∧
      (setFind SeriesInfo.lt [a] b = some 0 ↔ (a.lt b = false ∧ b.lt a = false)) := by
  constructor
  · constructor
    · rintro ⟨h1, h2⟩
      by_contra hc
      rcases SeriesInfo.lt_total a b hc with h | h
      · rw [h1] at h; exact absurd h (by simp)
      · rw [h2] at h; exact absurd h (by simp)
    · rintro ⟨hst, hse, hp⟩
      have hp1 : a.PatientID = b.PatientID ∨ a.IssuerOfPatientID = b.IssuerOfPatientID := by
        by_cases h : a.PatientID = b.PatientID
        · exact Or.inl h
        · by_cases h' : a.IssuerOfPatientID = b.IssuerOfPatientID
          · exact Or.inr h'
          · exact absurd ⟨h, h'⟩ hp
      exact ⟨SeriesInfo.lt_eq_false a b hst hse hp1,
        SeriesInfo.lt_eq_false b a hst.symm hse.symm (hp1.imp Eq.symm Eq.symm)⟩
  · cases h1 : a.lt b <;> cases h2 : b.lt a <;> simp [setFind, h1, h2]

end Dcm4d
